import Mathlib

/-!
# Verification of the tips-app payment coordination layer

Shallow embedding of the `Agentokratia/tips-app` repository's payment logic:

* the client payment selector (`src/hooks/usePayment.ts`):
  `createInputTokenPolicy`, `preferExactSelector`;
* the `/api/tip` route (`GET`, `handle402Response`, `handlePaymentSubmission`,
  the disabled requirements cache);
* the header transport codec used on both sides: `JSON.stringify`/`JSON.parse`
  composed with UTF-8 and base64 (`Buffer.from(...).toString("base64")` and
  its inverse).

JavaScript-specific semantics (truthiness of `""`/`0`/`null`, the `||`
operator, `parseFloat`) are modelled explicitly.  External collaborators
(name resolution, the facilitator's verify/settle, the two quote sources,
`preprocessSwapPayload` from `@agentokratia/x402-escrow`) are inputs to the
route models: an oracle function or an already-settled result, exactly the
data the route consumes.
-/

namespace TipsApp

/-! ## JSON values

A model of the JSON value space used by the app.  Numbers are restricted to
the naturals, the only numbers the app serializes (`x402Version`,
`maxTimeoutSeconds`).  Lean `Char` ranges over Unicode scalar values, so JS
strings containing lone UTF-16 surrogates are outside the model.
JSON `null` is included because `JSON.parse` can produce it.  Arrays and
objects are mutual inductives to keep structural recursion simple. -/

mutual

inductive Json where
  | null : Json
  | bool (b : Bool) : Json
  | num (n : Nat) : Json
  | str (s : String) : Json
  | arr (elems : JsonArr) : Json
  | obj (fields : JsonObj) : Json

inductive JsonArr where
  | nil : JsonArr
  | cons (hd : Json) (tl : JsonArr) : JsonArr

inductive JsonObj where
  | nil : JsonObj
  | cons (key : String) (val : Json) (tl : JsonObj) : JsonObj

end

deriving instance DecidableEq for Json, JsonArr, JsonObj

/-! ## `JSON.stringify`

Whitespace-free serialization exactly as `JSON.stringify` produces it:
`"` and `\` are escaped, the control characters `\b \t \n \f \r` use their
short escapes, the remaining control characters use `\u00xx` with lowercase
hex, and all other characters are emitted literally. -/

/-- Decimal digit character (`n < 10`). -/
def digitChar (n : Nat) : Char := Char.ofNat (48 + n)

/-- Lowercase hexadecimal digit character (`n < 16`). -/
def hexDigitChar (n : Nat) : Char :=
  if n < 10 then Char.ofNat (48 + n) else Char.ofNat (87 + n)

/-- Decimal printing of a natural number, most significant digit first. -/
def printNat (n : Nat) : List Char :=
  if _h : n < 10 then [digitChar n]
  else printNat (n / 10) ++ [digitChar (n % 10)]

/-- `JSON.stringify` escaping of one character inside a string literal. -/
def escapeChar (c : Char) : List Char :=
  if c = '"' then ['\\', '"']
  else if c = '\\' then ['\\', '\\']
  else if c = Char.ofNat 8 then ['\\', 'b']
  else if c = Char.ofNat 9 then ['\\', 't']
  else if c = Char.ofNat 10 then ['\\', 'n']
  else if c = Char.ofNat 12 then ['\\', 'f']
  else if c = Char.ofNat 13 then ['\\', 'r']
  else if c.toNat < 32 then
    ['\\', 'u', '0', '0', hexDigitChar (c.toNat / 16), hexDigitChar (c.toNat % 16)]
  else [c]

/-- Escape every character of a string body. -/
def escapeChars : List Char → List Char
  | [] => []
  | c :: cs => escapeChar c ++ escapeChars cs

mutual

/-- `JSON.stringify` of a value (no whitespace). -/
def stringifyJson : Json → List Char
  | .null => 'n' :: ['u', 'l', 'l']
  | .bool true => 't' :: ['r', 'u', 'e']
  | .bool false => 'f' :: ['a', 'l', 's', 'e']
  | .num n => printNat n
  | .str s => '"' :: (escapeChars s.data ++ ['"'])
  | .arr .nil => ['[', ']']
  | .arr (.cons hd tl) => '[' :: (stringifyArrItems hd tl ++ [']'])
  | .obj .nil => ['{', '}']
  | .obj (.cons k v tl) => '{' :: (stringifyObjItems k v tl ++ ['}'])
termination_by j => sizeOf j

/-- Comma-separated serialization of a non-empty array's items. -/
def stringifyArrItems (hd : Json) (tl : JsonArr) : List Char :=
  match tl with
  | .nil => stringifyJson hd
  | .cons hd2 tl2 => stringifyJson hd ++ ',' :: stringifyArrItems hd2 tl2
termination_by sizeOf hd + sizeOf tl

/-- Comma-separated serialization of a non-empty object's fields. -/
def stringifyObjItems (k : String) (v : Json) (tl : JsonObj) : List Char :=
  match tl with
  | .nil => ('"' :: (escapeChars k.data ++ ['"', ':'])) ++ stringifyJson v
  | .cons k2 v2 tl2 =>
      (('"' :: (escapeChars k.data ++ ['"', ':'])) ++ stringifyJson v) ++
        ',' :: stringifyObjItems k2 v2 tl2
termination_by sizeOf v + sizeOf tl

end

/-! ## `JSON.parse`

A recursive-descent parser for the serialization above.  It models
`JSON.parse` on the whitespace-free texts `JSON.stringify` emits (the only
texts this application ever parses: both directions of the header protocol
first pass through `JSON.stringify`).  Deviations from full `JSON.parse`,
none of which the app's data can reach: inter-token whitespace, fractional
or signed numbers, and `\u`-escaped surrogate pairs (mapped to U+FFFD here)
are not accepted. -/

/-- Value of a hexadecimal digit character. -/
def hexVal (c : Char) : Option Nat :=
  if '0' ≤ c ∧ c ≤ '9' then some (c.toNat - 48)
  else if 'a' ≤ c ∧ c ≤ 'f' then some (c.toNat - 87)
  else if 'A' ≤ c ∧ c ≤ 'F' then some (c.toNat - 55)
  else none

/-- Single-character JSON string escapes (`\"`, `\\`, `\/`, `\b`, `\f`, `\n`,
`\r`, `\t`). -/
def escDecode (e : Char) : Option Char :=
  if e = '"' then some '"'
  else if e = '\\' then some '\\'
  else if e = '/' then some '/'
  else if e = 'b' then some (Char.ofNat 8)
  else if e = 'f' then some (Char.ofNat 12)
  else if e = 'n' then some (Char.ofNat 10)
  else if e = 'r' then some (Char.ofNat 13)
  else if e = 't' then some (Char.ofNat 9)
  else none

/-- Parse a JSON string body (after the opening quote) up to and including
the closing quote.  Returns the decoded characters and the remaining input.
Raw control characters and invalid escapes are rejected, as in `JSON.parse`. -/
def parseStringBody (l : List Char) : Option (List Char × List Char) :=
  match l with
  | [] => none
  | c :: rest =>
    if c = '"' then some ([], rest)
    else if c = '\\' then
      match rest with
      | [] => none
      | e :: rest2 =>
        if e = 'u' then
          match rest2 with
          | h1 :: h2 :: h3 :: h4 :: rest3 =>
            match hexVal h1, hexVal h2, hexVal h3, hexVal h4 with
            | some a, some b, some c2, some d =>
              let v := a * 4096 + b * 256 + c2 * 16 + d
              let ch := if 0xD800 ≤ v ∧ v < 0xE000 then Char.ofNat 0xFFFD else Char.ofNat v
              match parseStringBody rest3 with
              | some (cs, r) => some (ch :: cs, r)
              | none => none
            | _, _, _, _ => none
          | _ => none
        else
          match escDecode e with
          | some ch =>
            match parseStringBody rest2 with
            | some (cs, r) => some (ch :: cs, r)
            | none => none
          | none => none
    else if c.toNat < 32 then none
    else
      match parseStringBody rest with
      | some (cs, r) => some (c :: cs, r)
      | none => none

/-- Parse a run of decimal digits at the head of the input. -/
def parseNatFrom (l : List Char) : Option (Nat × List Char) :=
  let ds := l.takeWhile Char.isDigit
  if ds.isEmpty then none
  else some (ds.foldl (fun acc c => acc * 10 + (c.toNat - 48)) 0, l.dropWhile Char.isDigit)

/-- Drop an expected literal character sequence from the input. -/
def dropLit : List Char → List Char → Option (List Char)
  | [], l => some l
  | p :: ps, c :: cs => if c = p then dropLit ps cs else none
  | _ :: _, [] => none

mutual

/-- Parse one JSON value.  `fuel` bounds the recursion depth; it is
instantiated with the input length by `parseJsonChars`, which suffices. -/
def parseJsonVal (fuel : Nat) (l : List Char) : Option (Json × List Char) :=
  match fuel, l with
  | 0, _ => none
  | _ + 1, [] => none
  | fuel + 1, c :: rest =>
    if c = 'n' then (dropLit ['u', 'l', 'l'] rest).map (fun r => (.null, r))
    else if c = 't' then (dropLit ['r', 'u', 'e'] rest).map (fun r => (.bool true, r))
    else if c = 'f' then (dropLit ['a', 'l', 's', 'e'] rest).map (fun r => (.bool false, r))
    else if c = '"' then
      (parseStringBody rest).map (fun p => (.str (String.mk p.1), p.2))
    else if c = '[' then
      match rest with
      | [] => none
      | c2 :: rest2 =>
        if c2 = ']' then some (.arr .nil, rest2)
        else (parseArrItems fuel (c2 :: rest2)).map (fun p => (.arr p.1, p.2))
    else if c = '{' then
      match rest with
      | [] => none
      | c2 :: rest2 =>
        if c2 = '}' then some (.obj .nil, rest2)
        else (parseObjItems fuel (c2 :: rest2)).map (fun p => (.obj p.1, p.2))
    else if c.isDigit then (parseNatFrom (c :: rest)).map (fun p => (.num p.1, p.2))
    else none
termination_by structural fuel

/-- Parse the items of a non-empty array, consuming the closing `]`. -/
def parseArrItems (fuel : Nat) (l : List Char) : Option (JsonArr × List Char) :=
  match fuel with
  | 0 => none
  | fuel + 1 =>
    (parseJsonVal fuel l).bind (fun vr =>
      match vr with
      | (_, []) => none
      | (v, c :: r2) =>
        if c = ',' then (parseArrItems fuel r2).map (fun ir => (.cons v ir.1, ir.2))
        else if c = ']' then some (.cons v .nil, r2)
        else none)
termination_by structural fuel

/-- Parse the fields of a non-empty object, consuming the closing `}`. -/
def parseObjItems (fuel : Nat) (l : List Char) : Option (JsonObj × List Char) :=
  match fuel, l with
  | 0, _ => none
  | _ + 1, [] => none
  | fuel + 1, c :: rest =>
    if c = '"' then
      (parseStringBody rest).bind (fun kr =>
        match kr with
        | (_, []) => none
        | (kcs, c2 :: r2) =>
          if c2 = ':' then
            (parseJsonVal fuel r2).bind (fun vr =>
              match vr with
              | (_, []) => none
              | (v, c3 :: r4) =>
                if c3 = ',' then
                  (parseObjItems fuel r4).map
                    (fun fr => (JsonObj.cons (String.mk kcs) v fr.1, fr.2))
                else if c3 = '}' then some (JsonObj.cons (String.mk kcs) v .nil, r4)
                else none)
          else none)
    else none
termination_by structural fuel

end

mutual

/-- Structural size of a JSON value, used to bound the parser fuel. -/
def jsizeV : Json → Nat
  | .null => 1
  | .bool _ => 1
  | .num _ => 1
  | .str _ => 1
  | .arr a => 1 + jsizeA a
  | .obj o => 1 + jsizeO o

/-- Structural size of an array's items. -/
def jsizeA : JsonArr → Nat
  | .nil => 0
  | .cons hd tl => 1 + jsizeV hd + jsizeA tl

/-- Structural size of an object's fields. -/
def jsizeO : JsonObj → Nat
  | .nil => 0
  | .cons _ v tl => 1 + jsizeV v + jsizeO tl

end

/-- Parse a complete JSON text: the whole input must be one value. -/
def parseJsonChars (l : List Char) : Option Json :=
  match parseJsonVal (l.length + 1) l with
  | some (j, []) => some j
  | _ => none

/-! ### Round-trip for the decimal printer -/

/-- The input continues with a non-digit (or ends): what may legally follow a
JSON number in the texts we parse. -/
def restNoDigit : List Char → Prop
  | [] => True
  | c :: _ => c.isDigit = false

/-! ### Round-trip for full JSON values -/

/-- Characters that can start a serialized JSON value. -/
def GoodHead (c : Char) : Prop :=
  c = 'n' ∨ c = 't' ∨ c = 'f' ∨ c = '"' ∨ c = '[' ∨ c = '{' ∨ c.isDigit = true

/-! ## UTF-8

`Buffer.from(string)` encodes UTF-8; `buffer.toString()` decodes it.  The
decoder is total and lossy (invalid sequences yield U+FFFD), matching
Node's behaviour on the inputs the app can see; it does not reproduce
Node's exact replacement-character count for truncated multi-byte
sequences, which no theorem here depends on. -/

/-- UTF-8 encoding of one Unicode scalar value. -/
def utf8EncodeChar (c : Char) : List Nat :=
  let v := c.toNat
  if v < 0x80 then [v]
  else if v < 0x800 then [0xC0 + v / 64, 0x80 + v % 64]
  else if v < 0x10000 then [0xE0 + v / 4096, 0x80 + v / 64 % 64, 0x80 + v % 64]
  else [0xF0 + v / 262144, 0x80 + v / 4096 % 64, 0x80 + v / 64 % 64, 0x80 + v % 64]

/-- UTF-8 encoding of a character list. -/
def utf8Encode : List Char → List Nat
  | [] => []
  | c :: cs => utf8EncodeChar c ++ utf8Encode cs

/-- The Unicode replacement character U+FFFD. -/
def replChar : Char := Char.ofNat 0xFFFD

/-- Is the byte a UTF-8 continuation byte? -/
def isCont (b : Nat) : Bool := 0x80 ≤ b && b < 0xC0

/-- Decode one UTF-8 scalar from byte `b` and remaining input `r`:
the decoded character (U+FFFD on invalid input) and the rest of the bytes. -/
def utf8Step (b : Nat) (r : List Nat) : Char × List Nat :=
  if b < 0x80 then (Char.ofNat b, r)
  else if b < 0xC0 then (replChar, r)
  else if b < 0xE0 then
    match r with
    | b1 :: r1 =>
      if isCont b1 then
        (let v := (b - 0xC0) * 64 + (b1 - 0x80)
         if 0x80 ≤ v then (Char.ofNat v, r1) else (replChar, r1))
      else (replChar, b1 :: r1)
    | [] => (replChar, [])
  else if b < 0xF0 then
    match r with
    | b1 :: b2 :: r2 =>
      if isCont b1 && isCont b2 then
        (let v := (b - 0xE0) * 4096 + (b1 - 0x80) * 64 + (b2 - 0x80)
         if 0x800 ≤ v ∧ ¬(0xD800 ≤ v ∧ v < 0xE000) then (Char.ofNat v, r2)
         else (replChar, r2))
      else (replChar, b1 :: b2 :: r2)
    | r' => (replChar, r'.tailD [])
  else if b < 0xF8 then
    match r with
    | b1 :: b2 :: b3 :: r3 =>
      if isCont b1 && isCont b2 && isCont b3 then
        (let v := (b - 0xF0) * 262144 + (b1 - 0x80) * 4096 +
            (b2 - 0x80) * 64 + (b3 - 0x80)
         if 0x10000 ≤ v ∧ v < 0x110000 then (Char.ofNat v, r3) else (replChar, r3))
      else (replChar, b1 :: b2 :: b3 :: r3)
    | r' => (replChar, r'.tailD [])
  else (replChar, r)

/-- Total, lossy UTF-8 decoding (invalid bytes become U+FFFD). -/
def utf8Decode (l : List Nat) : List Char :=
  match l with
  | [] => []
  | b :: r =>
    (utf8Step b r).1 :: utf8Decode (utf8Step b r).2
termination_by l.length
decreasing_by
  have : (utf8Step b r).2.length ≤ r.length := by
    rw [utf8Step.eq_def]
    rcases r with _ | ⟨b1, _ | ⟨b2, _ | ⟨b3, r3⟩⟩⟩ <;>
      (dsimp only; split_ifs <;> simp [List.tailD] <;> omega)
  simp_wf
  omega

/-! ## Base64

`Buffer.prototype.toString("base64")` (standard alphabet, `=` padding) and
Node's lenient decoder `Buffer.from(str, "base64")`, which skips characters
outside the alphabet (including `=` and whitespace) and decodes complete and
trailing partial sextet groups. -/

/-- Character of one base64 sextet (`n < 64`). -/
def b64Char (n : Nat) : Char :=
  if n < 26 then Char.ofNat (65 + n)
  else if n < 52 then Char.ofNat (97 + (n - 26))
  else if n < 62 then Char.ofNat (48 + (n - 52))
  else if n = 62 then '+'
  else '/'

/-- Value of a base64 alphabet character. -/
def b64Val (c : Char) : Option Nat :=
  if 'A' ≤ c ∧ c ≤ 'Z' then some (c.toNat - 65)
  else if 'a' ≤ c ∧ c ≤ 'z' then some (c.toNat - 97 + 26)
  else if '0' ≤ c ∧ c ≤ '9' then some (c.toNat - 48 + 52)
  else if c = '+' then some 62
  else if c = '/' then some 63
  else none

/-- Base64 encoding of a byte list, with `=` padding. -/
def b64Encode : List Nat → List Char
  | b0 :: b1 :: b2 :: r =>
    b64Char (b0 / 4) :: b64Char (b0 % 4 * 16 + b1 / 16) ::
      b64Char (b1 % 16 * 4 + b2 / 64) :: b64Char (b2 % 64) :: b64Encode r
  | [b0, b1] =>
    [b64Char (b0 / 4), b64Char (b0 % 4 * 16 + b1 / 16), b64Char (b1 % 16 * 4), '=']
  | [b0] => [b64Char (b0 / 4), b64Char (b0 % 4 * 16), '=', '=']
  | [] => []

/-- Reassemble bytes from a sextet stream (trailing partial groups allowed). -/
def decodeSextets : List Nat → List Nat
  | a :: b :: c :: d :: r =>
    (a * 4 + b / 16) :: (b % 16 * 16 + c / 4) :: (c % 4 * 64 + d) :: decodeSextets r
  | [a, b, c] => [a * 4 + b / 16, b % 16 * 16 + c / 4]
  | [a, b] => [a * 4 + b / 16]
  | _ => []

/-- Node's lenient base64 decode: drop non-alphabet characters, then decode. -/
def b64DecodeLenient (s : List Char) : List Nat :=
  decodeSextets (s.filterMap b64Val)

/-! ## The composed header codec

`Buffer.from(JSON.stringify(v)).toString("base64")` and its decoding
counterpart `JSON.parse(Buffer.from(s, "base64").toString())`, as used for
the `PAYMENT-SIGNATURE` and `PAYMENT-RESPONSE` headers on both the client
(`usePayment.ts`) and the server (the tip route). -/

/-- `Buffer.from(JSON.stringify(v)).toString("base64")`. -/
def encodeJsonBase64 (j : Json) : String :=
  String.mk (b64Encode (utf8Encode (stringifyJson j)))

/-- `JSON.parse(Buffer.from(s, "base64").toString())`, `none` when
`JSON.parse` throws. -/
def decodeBase64Json (s : String) : Option Json :=
  parseJsonChars (utf8Decode (b64DecodeLenient s.data))

/-! ## JavaScript value semantics

Truthiness and the `||` operator, needed because the route tests header and
field presence with `!x` and defaults with `x || d`. -/

/-- JS truthiness of a JSON value (`NaN` is not representable here; the app
never produces it). -/
def jsTruthy : Json → Bool
  | .null => false
  | .bool b => b
  | .num n => decide (n ≠ 0)
  | .str s => decide (s ≠ "")
  | .arr _ => true
  | .obj _ => true

/-- JS truthiness of a possibly-absent value (`undefined` is falsy). -/
def jsTruthyOpt : Option Json → Bool
  | some v => jsTruthy v
  | none => false

/-- JS `x || d` for string-or-undefined `x`. -/
def jsOrStr (o : Option String) (d : String) : String :=
  match o with
  | some s => if s = "" then d else s
  | none => d

/-- JS `x || d` for number-or-undefined `x` (0 is falsy). -/
def jsOrNat (o : Option Nat) (d : Nat) : Nat :=
  match o with
  | some n => if n = 0 then d else n
  | none => d

/-- JS `x || d` for a JSON-or-undefined value. -/
def jsOrJson (o : Option Json) (d : Json) : Json :=
  match o with
  | some v => if jsTruthy v then v else d
  | none => d

/-- Truthiness of an optional string (absent and `""` are falsy). -/
def jsStrTruthy : Option String → Bool
  | some s => decide (s ≠ "")
  | none => false

/-- Last binding of a key in an object's field list: `JSON.parse` keeps the
last occurrence of a duplicated key, so reading a parsed object's property
is a last-occurrence lookup.  On the objects the app builds, keys are unique
and this is the only binding. -/
def JsonObj.findLast (o : JsonObj) (k : String) : Option Json :=
  match o with
  | .nil => none
  | .cons k' v tl =>
    match JsonObj.findLast tl k with
    | some r => some r
    | none => if k' = k then some v else none

/-- JS property access `j[k]`: `undefined` (`none`) unless `j` is an object
with the field. -/
def jsGetField (j : Json) (k : String) : Option Json :=
  match j with
  | .obj o => o.findLast k
  | _ => none

/-- Property access returning a string, `undefined` otherwise. -/
def getStrField (j : Json) (k : String) : Option String :=
  match jsGetField j k with
  | some (.str s) => some s
  | _ => none

/-! ## `PaymentResult` (src/lib/types.ts) and its header codec -/

/-- `PaymentResult` from `src/lib/types.ts`: `success` plus optional
`transaction`, `network`, `recipient`, `amount`, `message`, `errorReason`. -/
structure PaymentResult where
  success : Bool
  transaction : Option String
  network : Option String
  recipient : Option String
  amount : Option String
  message : Option String
  errorReason : Option String
deriving DecidableEq

/-- Add a field to an object's field list when the value is defined
(`JSON.stringify` omits keys whose value is `undefined`). -/
def optField (k : String) (v : Option String) (tl : JsonObj) : JsonObj :=
  match v with
  | some s => .cons k (.str s) tl
  | none => tl

/-- The JSON value `JSON.stringify` serializes for a `PaymentResult`. -/
def PaymentResult.toJson (r : PaymentResult) : Json :=
  .obj (.cons "success" (.bool r.success)
    (optField "transaction" r.transaction
      (optField "network" r.network
        (optField "recipient" r.recipient
          (optField "amount" r.amount
            (optField "message" r.message
              (optField "errorReason" r.errorReason .nil)))))))

/-- Read a `PaymentResult` back from a parsed JSON value. -/
def PaymentResult.fromJson (j : Json) : Option PaymentResult :=
  match jsGetField j "success" with
  | some (.bool b) =>
    some { success := b
           transaction := getStrField j "transaction"
           network := getStrField j "network"
           recipient := getStrField j "recipient"
           amount := getStrField j "amount"
           message := getStrField j "message"
           errorReason := getStrField j "errorReason" }
  | _ => none

/-- The `PAYMENT-RESPONSE` header codec, encoding direction. -/
def encodePaymentResult (r : PaymentResult) : String :=
  encodeJsonBase64 r.toJson

/-- The `PAYMENT-RESPONSE` header codec, decoding direction. -/
def decodePaymentResult (s : String) : Option PaymentResult :=
  (decodeBase64Json s).bind PaymentResult.fromJson

/-! ## Client payment selector (src/hooks/usePayment.ts)

`createInputTokenPolicy` filters the accepts list by the chosen input token;
`preferExactSelector` picks from the filtered list.  The x402 client applies
the registered policy first and the selector to the policy's output
(`usePayment.ts` registers both on the `x402Client`), which
`selectPaymentRequirement` composes. -/

/-- The `swapData` record as the client policy reads it
(`extra?.swapData as { inputToken?: string }`). -/
structure SwapView where
  inputToken : Option String
deriving DecidableEq

/-- The `extra` bag as the client policy reads it. -/
structure ExtraView where
  swapData : Option SwapView
deriving DecidableEq

/-- `PolicyRequirements` from `usePayment.ts`: the fields the policy and
selector read from a requirement. -/
structure PolicyRequirements where
  scheme : String
  asset : Option String
  extra : Option ExtraView
deriving DecidableEq

/-- `createInputTokenPolicy` from `usePayment.ts` (lines 31-53): keep `exact`
requirements whose `asset` matches the chosen token case-insensitively; for
other schemes use `swapData.inputToken` when truthy, falling back to
`asset`. -/
def createInputTokenPolicy (inputToken : String) (requirements : List PolicyRequirements) :
    List PolicyRequirements :=
  let normalizedInput := inputToken.toLower
  requirements.filter fun req =>
    if req.scheme = "exact" then
      req.asset.map String.toLower == some normalizedInput
    else
      match (req.extra.bind ExtraView.swapData).bind SwapView.inputToken with
      | some t =>
        if t ≠ "" then t.toLower == normalizedInput
        else req.asset.map String.toLower == some normalizedInput
      | none => req.asset.map String.toLower == some normalizedInput

/-- `preferExactSelector` from `usePayment.ts` (lines 60-67): the first
`exact` requirement if any, otherwise `requirements[0]` (`none` models JS
`undefined` on an empty list). -/
def preferExactSelector (requirements : List PolicyRequirements) :
    Option PolicyRequirements :=
  match requirements.find? (fun r => r.scheme == "exact") with
  | some exact => some exact
  | none => requirements.head?

/-- The composed client selection: policy filter, then selector, as
`x402Client.createPaymentPayload` applies them. -/
def selectPaymentRequirement (inputToken : String) (requirements : List PolicyRequirements) :
    Option PolicyRequirements :=
  preferExactSelector (createInputTokenPolicy inputToken requirements)

/-- Case-insensitive equality of an optional address with the chosen token,
false when absent. -/
def lowerEq (o : Option String) (t : String) : Bool :=
  o.map String.toLower == some t.toLower

/-- The requirement's nested `swapData.inputToken` when present (a truthy
string), `none` otherwise.  Formalizes the claim's "no swapData.inputToken is
present" with JS truthiness: an empty string counts as absent. -/
def swapInputToken (req : PolicyRequirements) : Option String :=
  match (req.extra.bind ExtraView.swapData).bind SwapView.inputToken with
  | some t => if t = "" then none else some t
  | none => none

/-- Requirement compatibility with the chosen input token as the
specification words it: `exact` matches on `asset`, `escrow` matches on
`swapData.inputToken` with `asset` as fallback. -/
def specCompatible (inputToken : String) (req : PolicyRequirements) : Bool :=
  if req.scheme = "exact" then lowerEq req.asset inputToken
  else if req.scheme = "escrow" then
    match swapInputToken req with
    | some t => t.toLower == inputToken.toLower
    | none => lowerEq req.asset inputToken
  else false

/-! ## `parseFloat` (route amount validation)

Exact-rational model of ECMAScript `parseFloat`: skip leading whitespace,
parse an optional sign, then the longest prefix that is `Infinity` or a
decimal literal (digits, optional fraction, optional exponent); `none` is
`NaN`.  Rationals are exact where JS doubles round; the route only compares
the result with 0, and no claim depends on sub-double-precision inputs. -/

/-- A finite `parseFloat` result in symbolic form: the value is
`(-1 if neg) * mantissa / 10 ^ fracLen * 10 ^ exp` (see
`FiniteFloat.value`).  Components are kept symbolic so that positivity is
decidable by computation; the rational value is exact where JS doubles
round, and no claim depends on sub-double-precision inputs. -/
structure FiniteFloat where
  neg : Bool
  mantissa : Nat
  fracLen : Nat
  exp : Int
deriving DecidableEq

/-- The rational value of a finite `parseFloat` result. -/
def FiniteFloat.value (f : FiniteFloat) : ℚ :=
  (if f.neg then -1 else 1) * (f.mantissa : ℚ) / 10 ^ f.fracLen * (10 : ℚ) ^ f.exp

/-- JS number value: a finite value or an infinity (`NaN` is `none` at the
use sites). -/
inductive JsNum where
  | finite (f : FiniteFloat)
  | posInf
  | negInf
deriving DecidableEq

/-- ASCII whitespace accepted before a numeric literal. -/
def isWs (c : Char) : Bool :=
  c = ' ' || c = Char.ofNat 9 || c = Char.ofNat 10 || c = Char.ofNat 11 ||
    c = Char.ofNat 12 || c = Char.ofNat 13

/-- Numeric value of a digit run, most significant first. -/
def digitsVal (ds : List Char) : Nat :=
  ds.foldl (fun acc c => acc * 10 + (c.toNat - 48)) 0

/-- Value of the trailing exponent part (`e`/`E`, optional sign, digits);
0 when absent or digit-less (an unconsumed exponent contributes a factor
of `10 ^ 0`). -/
def parseExpVal (l : List Char) : Int :=
  match l with
  | e :: r =>
    if e = 'e' || e = 'E' then
      match r with
      | '+' :: r2 => (digitsVal (r2.takeWhile Char.isDigit) : Int)
      | '-' :: r2 => -(digitsVal (r2.takeWhile Char.isDigit) : Int)
      | r2 => (digitsVal (r2.takeWhile Char.isDigit) : Int)
    else 0
  | [] => 0

/-- Longest unsigned decimal-literal prefix (`digits [. digits] [exp]` or
`. digits [exp]`), `none` when no digits start the input. -/
def parseDecimalLit (l : List Char) : Option FiniteFloat :=
  let intDs := l.takeWhile Char.isDigit
  if intDs.isEmpty then
    match l with
    | '.' :: r2 =>
      let fracDs := r2.takeWhile Char.isDigit
      if fracDs.isEmpty then none
      else some ⟨false, digitsVal fracDs, fracDs.length,
        parseExpVal (r2.dropWhile Char.isDigit)⟩
    | _ => none
  else
    match l.dropWhile Char.isDigit with
    | '.' :: r2 =>
      let fracDs := r2.takeWhile Char.isDigit
      some ⟨false, digitsVal (intDs ++ fracDs), fracDs.length,
        parseExpVal (r2.dropWhile Char.isDigit)⟩
    | r1 => some ⟨false, digitsVal intDs, 0, parseExpVal r1⟩

/-- Unsigned numeric prefix: the literal `Infinity` or a decimal literal. -/
def parseUnsignedNum (l : List Char) : Option JsNum :=
  if l.take 8 = "Infinity".data then some .posInf
  else (parseDecimalLit l).map .finite

/-- Negation of a JS number. -/
def jsNumNeg : JsNum → JsNum
  | .finite f => .finite { f with neg := !f.neg }
  | .posInf => .negInf
  | .negInf => .posInf

/-- ECMAScript `parseFloat`; `none` is `NaN`. -/
def jsParseFloat (s : String) : Option JsNum :=
  match s.data.dropWhile isWs with
  | '-' :: r => (parseUnsignedNum r).map jsNumNeg
  | '+' :: r => parseUnsignedNum r
  | r => parseUnsignedNum r

/-- Is the JS number strictly positive?  For a finite value this is
computed from the sign and mantissa; `finite_value_pos_iff` proves it
agrees with `0 < value`. -/
def jsNumPos : JsNum → Bool
  | .finite f => !f.neg && decide (0 < f.mantissa)
  | .posInf => true
  | .negInf => false

/-- The route's amount validation (part_005 lines 53-60): accept unless
`parseFloat` yields `NaN` or a value `≤ 0`. -/
def validAmount (amount : String) : Bool :=
  match jsParseFloat amount with
  | none => false
  | some v => jsNumPos v

/-- A strict positive decimal numeral: digits, an optional single fraction
part, nothing else, with positive value — what the amount string is
documented to be. -/
def isPositiveDecimalNumeral (s : String) : Bool :=
  let l := s.data
  let intDs := l.takeWhile Char.isDigit
  if intDs.isEmpty then false
  else
    match l.dropWhile Char.isDigit with
    | [] => decide (0 < digitsVal intDs)
    | '.' :: fr =>
      if fr.isEmpty then false
      else fr.all Char.isDigit && decide (0 < digitsVal intDs + digitsVal fr)
    | _ => false

/-! ## The GET route (part_005 lines 39-117)

Validation order as in the source: missing params, amount, recipient
resolution (outbound RPC), supported-networks fetch (outbound), network
format, network membership, then dispatch on the `PAYMENT-SIGNATURE`
header.  Outbound calls are recorded in a trace; the resolver result and
the supported-networks list are oracle inputs. -/

/-- Outbound network calls the route body makes before dispatching. -/
inductive NetCall where
  | resolveRecipient (toParam : String)
  | fetchSupportedNetworks
deriving DecidableEq

/-- Result of the validation phase: an early response, or dispatch to the
challenge / submission handler. -/
inductive GetOutcome where
  | response (status : Nat) (body : Json)
  | challenge (toParam amount network recipientAddress : String)
  | submission (toParam amount network recipientAddress signature : String)
deriving DecidableEq

/-- The route's network-format test, `/^eip155:\d+$/`. -/
def networkFormatOk (network : String) : Bool :=
  network.startsWith "eip155:" && !(network.drop 7).isEmpty &&
    (network.drop 7).data.all Char.isDigit

/-- JSON array of strings (for the `supportedNetworks` response field). -/
def strArr : List String → JsonArr
  | [] => .nil
  | s :: r => .cons (.str s) (strArr r)

/-- One-field error body `{ error: msg }`. -/
def errorJson (msg : String) : Json :=
  .obj (.cons "error" (.str msg) .nil)

/-- The `GET /api/tip` validation and dispatch pipeline. -/
def tipGET (toParam amountParam networkParam : Option String)
    (resolve : String → Option String) (supportedNetworks : List String)
    (paymentSignature : Option String) : GetOutcome × List NetCall :=
  if ¬ jsStrTruthy toParam ∨ ¬ jsStrTruthy amountParam then
    (.response 400 (errorJson "Missing required parameters: to, amount"), [])
  else
    let toStr := toParam.getD ""
    let amount := amountParam.getD ""
    if ¬ validAmount amount then
      (.response 400 (errorJson "Invalid amount. Must be a positive number."), [])
    else
      match resolve toStr with
      | none =>
        (.response 400 (errorJson ("Could not resolve recipient: " ++ toStr)),
          [.resolveRecipient toStr])
      | some recipientAddress =>
        if supportedNetworks.isEmpty then
          (.response 500 (errorJson "No networks supported by facilitator"),
            [.resolveRecipient toStr, .fetchSupportedNetworks])
        else
          let network :=
            if jsStrTruthy networkParam then networkParam.getD ""
            else (supportedNetworks.head?).getD ""
          if ¬ networkFormatOk network then
            (.response 400 (errorJson "Invalid network format. Use eip155:CHAINID"),
              [.resolveRecipient toStr, .fetchSupportedNetworks])
          else if network ∉ supportedNetworks then
            (.response 400 (.obj (.cons "error" (.str ("Network " ++ network ++ " not supported"))
                (.cons "supportedNetworks" (.arr (strArr supportedNetworks)) .nil))),
              [.resolveRecipient toStr, .fetchSupportedNetworks])
          else if jsStrTruthy paymentSignature then
            (.submission toStr amount network recipientAddress (paymentSignature.getD ""),
              [.resolveRecipient toStr, .fetchSupportedNetworks])
          else
            (.challenge toStr amount network recipientAddress,
              [.resolveRecipient toStr, .fetchSupportedNetworks])

/-! ## The 402 challenge handler (part_005 lines 121-252)

`handle402Response` consumes the settled results of the two concurrently
issued quote calls (`Promise.allSettled` always runs both; each result is
independently fulfilled or rejected, here an `Except` value), normalizes
the fulfilled shapes into `PaymentRequirements`, and builds the response.
`extra` bags are opaque pass-through data, modelled as `Json`. -/

/-- `PaymentRequirements` from `src/lib/types.ts`. -/
structure PaymentRequirements where
  scheme : String
  network : String
  asset : String
  amount : String
  payTo : String
  maxTimeoutSeconds : Nat
  extra : Json
deriving DecidableEq

/-- The shape `server.buildPaymentRequirements` resolves with (exact path);
fields the normalization reads, optional where the code defaults them. -/
structure ExactBuilt where
  scheme : String
  network : String
  asset : Option String
  amount : String
  payTo : String
  maxTimeoutSeconds : Option Nat
  extra : Option Json
deriving DecidableEq

/-- An escrow accept's `price`: either a nested object (amount/asset/extra)
or a primitive, which the code stringifies. -/
inductive PriceVal where
  | obj (amount : String) (asset : Option String) (extra : Option Json)
  | str (s : String)
  | num (n : Nat)
deriving DecidableEq

/-- The shape `escrow.buildAcceptsResolved` resolves with. -/
structure EscrowAccept where
  scheme : String
  network : String
  payTo : String
  maxTimeoutSeconds : Option Nat
  price : PriceVal
deriving DecidableEq

/-- Normalization of one exact requirement (part_005 lines 177-187). -/
def normalizeExact (req : ExactBuilt) : PaymentRequirements :=
  { scheme := req.scheme
    network := req.network
    asset := jsOrStr req.asset ""
    amount := req.amount
    payTo := req.payTo
    maxTimeoutSeconds := jsOrNat req.maxTimeoutSeconds 600
    extra := jsOrJson req.extra (.obj .nil) }

/-- `String(price)` for a primitive price. -/
def priceToString : PriceVal → String
  | .obj _ _ _ => ""
  | .str s => s
  | .num n => String.mk (printNat n)

/-- Normalization of one escrow accept (part_005 lines 194-210): prices that
are not objects become `{ amount: String(price), asset: "", extra: {} }`. -/
def normalizeEscrow (accept : EscrowAccept) : PaymentRequirements :=
  let priceObj : String × Option String × Option Json :=
    match accept.price with
    | .obj a as ex => (a, as, ex)
    | p => (priceToString p, some "", some (.obj .nil))
  { scheme := accept.scheme
    network := accept.network
    asset := jsOrStr priceObj.2.1 ""
    amount := priceObj.1
    payTo := accept.payTo
    maxTimeoutSeconds := jsOrNat accept.maxTimeoutSeconds 600
    extra := jsOrJson priceObj.2.2 (.obj .nil) }

/-- Cache disabled - always return null (part_005 lines 26-28). -/
def getCachedRequirements (_key : String) : Option (List PaymentRequirements) :=
  none

/-- Cache disabled - no-op (part_005 lines 31-33). -/
def cacheRequirements (_key : String) (_requirements : List PaymentRequirements) : Unit :=
  ()

/-- Cache key (part_005 lines 35-37). -/
def getCacheKey (network amount recipient : String) : String :=
  network ++ ":" ++ amount ++ ":" ++ recipient.toLower

/-- The value of the `Access-Control-Expose-Headers` header the route sets. -/
def exposeValue : String := "PAYMENT-REQUIRED, PAYMENT-RESPONSE"

/-- The challenge response: status, JSON body, the decoded content of the
`PAYMENT-REQUIRED` header (it transports base64 JSON of this list), and the
`Access-Control-Expose-Headers` value when set. -/
structure ChallengeResponse where
  status : Nat
  body : Json
  paymentRequired : Option (List PaymentRequirements)
  exposeHeaders : Option String
deriving DecidableEq

/-- The combined normalized requirement list built from the two settled
quote-call results (exact entries first, as the code pushes them). -/
def combinedRequirements (exactResult : Except String (List ExactBuilt))
    (escrowResult : Except String (List EscrowAccept)) : List PaymentRequirements :=
  (match exactResult with
    | .ok value => value.map normalizeExact
    | .error _ => []) ++
  (match escrowResult with
    | .ok value => value.map normalizeEscrow
    | .error _ => [])

/-- The 402 challenge body `{ message, recipient, amount, network }`. -/
def challengeBody (message toStr amount network : String) : Json :=
  .obj (.cons "message" (.str message)
    (.cons "recipient" (.str toStr)
      (.cons "amount" (.str amount)
        (.cons "network" (.str network) .nil))))

/-- `handle402Response` as written, including the (dead) cache-hit branch. -/
def handle402Response (toStr amount network recipientAddress : String)
    (exactResult : Except String (List ExactBuilt))
    (escrowResult : Except String (List EscrowAccept)) : ChallengeResponse :=
  let cacheKey := getCacheKey network amount recipientAddress
  match getCachedRequirements cacheKey with
  | some cached =>
    { status := 402
      body := challengeBody "Payment required (cached)" toStr amount network
      paymentRequired := some cached
      exposeHeaders := some exposeValue }
  | none =>
    let paymentRequirements := combinedRequirements exactResult escrowResult
    if paymentRequirements.isEmpty then
      { status := 500
        body := errorJson "No payment options available"
        paymentRequired := none
        exposeHeaders := none }
    else
      let _ := cacheRequirements cacheKey paymentRequirements
      { status := 402
        body := challengeBody "Payment required" toStr amount network
        paymentRequired := some paymentRequirements
        exposeHeaders := some exposeValue }

/-- The same handler with the cache seam removed entirely. -/
def handle402NoCache (toStr amount network _recipientAddress : String)
    (exactResult : Except String (List ExactBuilt))
    (escrowResult : Except String (List EscrowAccept)) : ChallengeResponse :=
  let paymentRequirements := combinedRequirements exactResult escrowResult
  if paymentRequirements.isEmpty then
    { status := 500
      body := errorJson "No payment options available"
      paymentRequired := none
      exposeHeaders := none }
  else
    { status := 402
      body := challengeBody "Payment required" toStr amount network
      paymentRequired := some paymentRequirements
      exposeHeaders := some exposeValue }

/-! ## The payment submission handler (part_005 lines 254-364)

The facilitator's `verify` and `settle`, and the escrow library's
`preprocessSwapPayload`, are oracle functions; the calls made to the
facilitator are recorded as events in order.  A thrown `JSON.parse` or
null-destructuring error lands in the catch branch with the error's message
(`excMsg`). -/

/-- Facilitator verify result (`VerifyResponse` in `src/lib/types.ts`). -/
structure VerifyResult where
  isValid : Bool
  invalidReason : Option String
deriving DecidableEq

/-- Facilitator settle result (`SettleResponse` in `src/lib/types.ts`). -/
structure SettleResult where
  success : Bool
  transaction : Option String
  network : Option String
  errorReason : Option String
deriving DecidableEq

/-- Facilitator calls made by the submission handler, in order. -/
inductive FacEvent where
  | verifyCalled (payload : Json) (accepted : Json)
  | settleCalled (payload : Json) (accepted : Json)
deriving DecidableEq

/-- The submission response: status, JSON body, the `PAYMENT-RESPONSE`
header value when set, and `Access-Control-Expose-Headers` when set. -/
structure SubmitResponse where
  status : Nat
  body : Json
  paymentResponse : Option String
  exposeHeaders : Option String
deriving DecidableEq

/-- The reconstructed resource descriptor (part_005 lines 282-286). -/
def resourceJson (toStr amount network : String) : Json :=
  .obj (.cons "url" (.str ("/api/tip?to=" ++ toStr ++ "&amount=" ++ amount ++
      "&network=" ++ network))
    (.cons "description" (.str ("Tip of $" ++ amount ++ " to " ++ toStr))
      (.cons "mimeType" (.str "application/json") .nil)))

/-- The full payload forwarded to the facilitator (part_005 lines 280-289):
`{ x402Version: parsed.x402Version || 2, resource, accepted, payload }`. -/
def mkFullPaymentPayload (toStr amount network : String)
    (parsed accepted payload : Json) : Json :=
  .obj (.cons "x402Version" (jsOrJson (jsGetField parsed "x402Version") (.num 2))
    (.cons "resource" (resourceJson toStr amount network)
      (.cons "accepted" accepted
        (.cons "payload" payload .nil))))

/-- Error-shaped result body `{ success: false, errorReason }`. -/
def errorResultBody (reason : String) : Json :=
  .obj (.cons "success" (.bool false)
    (.cons "errorReason" (.str reason) .nil))

/-- The catch branch (part_005 lines 350-363): HTTP 500 with the thrown
error's message, body mirrored into the header. -/
def catchResponse (excMsg : String) : SubmitResponse :=
  let body := errorResultBody ("Payment processing error: " ++ excMsg)
  { status := 500
    body := body
    paymentResponse := some (encodeJsonBase64 body)
    exposeHeaders := some exposeValue }

/-- `handlePaymentSubmission`: decode the header, check `accepted` and
`payload`, preprocess once, verify, settle, and build the response. -/
def handlePaymentSubmission (toStr amount network recipientAddress paymentSignature : String)
    (preprocess : Json → Json)
    (verify : Json → Json → VerifyResult)
    (settle : Json → Json → SettleResult)
    (excMsg : String) : SubmitResponse × List FacEvent :=
  match decodeBase64Json paymentSignature with
  | none => (catchResponse excMsg, [])
  | some parsed =>
    if parsed = Json.null then (catchResponse excMsg, [])
    else
      let acceptedField := jsGetField parsed "accepted"
      let payloadField := jsGetField parsed "payload"
      if ¬ jsTruthyOpt acceptedField ∨ ¬ jsTruthyOpt payloadField then
        ({ status := 400
           body := errorJson "Invalid payment payload: missing accepted or payload"
           paymentResponse := none
           exposeHeaders := none }, [])
      else
        let accepted := acceptedField.getD .null
        let payload := payloadField.getD .null
        let fullPaymentPayload := mkFullPaymentPayload toStr amount network parsed accepted payload
        let processedPayload := preprocess fullPaymentPayload
        let processedAccepted := (jsGetField processedPayload "accepted").getD .null
        let verifyResult := verify processedPayload processedAccepted
        if ¬ verifyResult.isValid then
          let body := errorResultBody (jsOrStr verifyResult.invalidReason
            "Payment verification failed")
          ({ status := 402
             body := body
             paymentResponse := some (encodeJsonBase64 body)
             exposeHeaders := some exposeValue },
            [.verifyCalled processedPayload processedAccepted])
        else
          let settleResult := settle processedPayload processedAccepted
          if ¬ settleResult.success then
            let body := errorResultBody (jsOrStr settleResult.errorReason
              "Payment settlement failed")
            ({ status := 402
               body := body
               paymentResponse := some (encodeJsonBase64 body)
               exposeHeaders := some exposeValue },
              [.verifyCalled processedPayload processedAccepted,
                .settleCalled processedPayload processedAccepted])
          else
            let body := .obj (.cons "success" (.bool true)
              (.cons "message" (.str ("Tip of $" ++ amount ++ " received by " ++ toStr))
                (optField "transaction" settleResult.transaction
                  (.cons "network" (.str (jsOrStr settleResult.network network))
                    (.cons "recipient" (.str recipientAddress)
                      (.cons "amount" (.str amount) .nil))))))
            ({ status := 200
               body := body
               paymentResponse := some (encodeJsonBase64 body)
               exposeHeaders := some exposeValue },
              [.verifyCalled processedPayload processedAccepted,
                .settleCalled processedPayload processedAccepted])

/-- The client's `PAYMENT-SIGNATURE` header construction (usePayment.ts
line 142): base64 of the JSON payload, attached without any transformation
of the payload (in particular no decompression of swap call data). -/
def clientBuildSignatureHeader (paymentPayload : Json) : String :=
  encodeJsonBase64 paymentPayload

/-- The payload the facilitator receives: `preprocessSwapPayload` applied
once to the reconstructed full payload. -/
def processedOf (toStr amount network : String) (preprocess : Json → Json)
    (parsed : Json) : Json :=
  preprocess (mkFullPaymentPayload toStr amount network parsed
    ((jsGetField parsed "accepted").getD .null)
    ((jsGetField parsed "payload").getD .null))

/-- The accepted requirement the facilitator receives:
`processedPayload.accepted`. -/
def processedAcceptedOf (toStr amount network : String) (preprocess : Json → Json)
    (parsed : Json) : Json :=
  (jsGetField (processedOf toStr amount network preprocess parsed) "accepted").getD .null

/-- The 400 response for a payload missing `accepted` or `payload`. -/
def missingFieldResponse : SubmitResponse :=
  { status := 400
    body := errorJson "Invalid payment payload: missing accepted or payload"
    paymentResponse := none
    exposeHeaders := none }

/-- A response whose body is mirrored into the base64 `PAYMENT-RESPONSE`
header with the CORS expose header set. -/
def mirrored (status : Nat) (body : Json) : SubmitResponse :=
  { status := status
    body := body
    paymentResponse := some (encodeJsonBase64 body)
    exposeHeaders := some exposeValue }

/-- The success receipt body (part_005 lines 333-340). -/
def successBodyOf (toStr amount network recipientAddress : String)
    (sr : SettleResult) : Json :=
  .obj (.cons "success" (.bool true)
    (.cons "message" (.str ("Tip of $" ++ amount ++ " received by " ++ toStr))
      (optField "transaction" sr.transaction
        (.cons "network" (.str (jsOrStr sr.network network))
          (.cons "recipient" (.str recipientAddress)
            (.cons "amount" (.str amount) .nil))))))

theorem digitChar_isDigit : ∀ d, d < 10 → (digitChar d).isDigit = true := by decide

theorem digitChar_toNat : ∀ d, d < 10 → (digitChar d).toNat = 48 + d := by decide

theorem printNat_ne_nil (n : Nat) : printNat n ≠ [] := by
  rw [printNat]
  split <;> simp

theorem printNat_all_digits (n : Nat) : ∀ c ∈ printNat n, c.isDigit = true := by
  induction n using Nat.strong_induction_on with
  | _ n ih =>
    rw [printNat]
    split
    · next h =>
      intro c hc
      simp only [List.mem_singleton] at hc
      subst hc
      exact digitChar_isDigit n h
    · next h =>
      intro c hc
      rw [List.mem_append] at hc
      rcases hc with hc | hc
      · exact ih (n / 10) (by omega) c hc
      · simp only [List.mem_singleton] at hc
        subst hc
        exact digitChar_isDigit (n % 10) (by omega)

theorem foldl_printNat (n : Nat) : ∀ a : Nat,
    (printNat n).foldl (fun acc c => acc * 10 + (c.toNat - 48)) a =
      a * 10 ^ (printNat n).length + n := by
  induction n using Nat.strong_induction_on with
  | _ n ih =>
    intro a
    rw [printNat]
    split
    · next h =>
      simp only [List.foldl_cons, List.foldl_nil, List.length_singleton, pow_one]
      rw [digitChar_toNat n h]
      omega
    · next h =>
      rw [List.foldl_append, ih (n / 10) (by omega)]
      simp only [List.foldl_cons, List.foldl_nil, List.length_append,
        List.length_singleton]
      rw [digitChar_toNat (n % 10) (by omega)]
      have hmod : 48 + n % 10 - 48 = n % 10 := by omega
      rw [hmod]
      have hh : n / 10 * 10 + n % 10 = n := by omega
      calc (a * 10 ^ (printNat (n / 10)).length + n / 10) * 10 + n % 10
          = a * (10 ^ (printNat (n / 10)).length * 10) + (n / 10 * 10 + n % 10) := by ring
        _ = a * 10 ^ ((printNat (n / 10)).length + 1) + n := by rw [hh, pow_succ]

theorem takeWhile_append_all {p : Char → Bool} {l1 l2 : List Char}
    (h : ∀ c ∈ l1, p c = true) :
    (l1 ++ l2).takeWhile p = l1 ++ l2.takeWhile p := by
  induction l1 with
  | nil => simp
  | cons c cs ih =>
    rw [List.cons_append, List.takeWhile_cons, if_pos (h c (by simp)),
      ih (fun x hx => h x (by simp [hx])), List.cons_append]

theorem dropWhile_append_all {p : Char → Bool} {l1 l2 : List Char}
    (h : ∀ c ∈ l1, p c = true) :
    (l1 ++ l2).dropWhile p = l2.dropWhile p := by
  induction l1 with
  | nil => simp
  | cons c cs ih =>
    simp only [List.cons_append, List.dropWhile_cons, h c (by simp)]
    exact ih (fun x hx => h x (by simp [hx]))

theorem takeWhile_noDigit {l : List Char} (h : restNoDigit l) :
    l.takeWhile Char.isDigit = [] := by
  cases l with
  | nil => rfl
  | cons c cs => simp_all [restNoDigit, List.takeWhile_cons]

theorem dropWhile_noDigit {l : List Char} (h : restNoDigit l) :
    l.dropWhile Char.isDigit = l := by
  cases l with
  | nil => rfl
  | cons c cs => simp_all [restNoDigit, List.dropWhile_cons]

theorem parseNatFrom_printNat (n : Nat) (rest : List Char) (h : restNoDigit rest) :
    parseNatFrom (printNat n ++ rest) = some (n, rest) := by
  have hne := printNat_ne_nil n
  simp only [parseNatFrom, takeWhile_append_all (printNat_all_digits n),
    dropWhile_append_all (printNat_all_digits n),
    takeWhile_noDigit h, dropWhile_noDigit h, List.append_nil,
    List.isEmpty_iff, hne, if_false]
  rw [foldl_printNat n 0]
  simp

/-! ### Round-trip for string escaping -/

theorem hexVal_hexDigitChar : ∀ n, n < 16 → hexVal (hexDigitChar n) = some n := by decide

theorem parseStringBody_close (rest : List Char) :
    parseStringBody ('"' :: rest) = some ([], rest) := by
  rw [parseStringBody.eq_def]
  simp

theorem parseStringBody_cons_esc (e : Char) (he : e ≠ 'u') (tail : List Char) :
    parseStringBody ('\\' :: e :: tail) =
      match escDecode e with
      | some ch =>
        (match parseStringBody tail with
         | some (cs, r) => some (ch :: cs, r)
         | none => none)
      | none => none := by
  rw [parseStringBody.eq_def]
  dsimp only
  rw [if_neg (by decide), if_pos rfl, if_neg he]

theorem parseStringBody_cons_u (h1 h2 h3 h4 : Char) (tail : List Char) :
    parseStringBody ('\\' :: 'u' :: h1 :: h2 :: h3 :: h4 :: tail) =
      match hexVal h1, hexVal h2, hexVal h3, hexVal h4 with
      | some a, some b, some c2, some d =>
        let v := a * 4096 + b * 256 + c2 * 16 + d
        let ch := if 0xD800 ≤ v ∧ v < 0xE000 then Char.ofNat 0xFFFD else Char.ofNat v
        (match parseStringBody tail with
         | some (cs, r) => some (ch :: cs, r)
         | none => none)
      | _, _, _, _ => none := by
  rw [parseStringBody.eq_def]
  dsimp only
  rw [if_neg (by decide), if_pos rfl, if_pos rfl]

theorem parseStringBody_cons_plain (c : Char) (tail : List Char)
    (h1 : c ≠ '"') (h2 : c ≠ '\\') (h3 : ¬ c.toNat < 32) :
    parseStringBody (c :: tail) =
      match parseStringBody tail with
      | some (cs, r) => some (c :: cs, r)
      | none => none := by
  rw [parseStringBody.eq_def]
  dsimp only
  rw [if_neg h1, if_neg h2, if_neg h3]

theorem parseStringBody_escape (cs rest : List Char) :
    parseStringBody (escapeChars cs ++ '"' :: rest) = some (cs, rest) := by
  induction cs with
  | nil => simpa [escapeChars] using parseStringBody_close rest
  | cons c cs ih =>
    show parseStringBody ((escapeChar c ++ escapeChars cs) ++ '"' :: rest) = _
    rw [List.append_assoc]
    by_cases hq : c = '"'
    · subst hq
      have hesc : escapeChar '"' = ['\\', '"'] := by simp [escapeChar]
      rw [hesc, List.cons_append, List.cons_append, List.nil_append,
        parseStringBody_cons_esc _ (by decide), ih]
      rfl
    · by_cases hbs : c = '\\'
      · subst hbs
        have hesc : escapeChar '\\' = ['\\', '\\'] := by simp [escapeChar]
        rw [hesc, List.cons_append, List.cons_append, List.nil_append,
          parseStringBody_cons_esc _ (by decide), ih]
        rfl
      · by_cases h8 : c = Char.ofNat 8
        · subst h8
          have hesc : escapeChar (Char.ofNat 8) = ['\\', 'b'] := by simp [escapeChar]
          rw [hesc, List.cons_append, List.cons_append, List.nil_append,
            parseStringBody_cons_esc _ (by decide), ih]
          rfl
        · by_cases h9 : c = Char.ofNat 9
          · subst h9
            have hesc : escapeChar (Char.ofNat 9) = ['\\', 't'] := by simp [escapeChar]
            rw [hesc, List.cons_append, List.cons_append, List.nil_append,
              parseStringBody_cons_esc _ (by decide), ih]
            rfl
          · by_cases h10 : c = Char.ofNat 10
            · subst h10
              have hesc : escapeChar (Char.ofNat 10) = ['\\', 'n'] := by simp [escapeChar]
              rw [hesc, List.cons_append, List.cons_append, List.nil_append,
                parseStringBody_cons_esc _ (by decide), ih]
              rfl
            · by_cases h12 : c = Char.ofNat 12
              · subst h12
                have hesc : escapeChar (Char.ofNat 12) = ['\\', 'f'] := by simp [escapeChar]
                rw [hesc, List.cons_append, List.cons_append, List.nil_append,
                  parseStringBody_cons_esc _ (by decide), ih]
                rfl
              · by_cases h13 : c = Char.ofNat 13
                · subst h13
                  have hesc : escapeChar (Char.ofNat 13) = ['\\', 'r'] := by simp [escapeChar]
                  rw [hesc, List.cons_append, List.cons_append, List.nil_append,
                    parseStringBody_cons_esc _ (by decide), ih]
                  rfl
                · by_cases hctl : c.toNat < 32
                  · have hesc : escapeChar c =
                        ['\\', 'u', '0', '0', hexDigitChar (c.toNat / 16),
                          hexDigitChar (c.toNat % 16)] := by
                      rw [escapeChar, if_neg hq, if_neg hbs, if_neg h8, if_neg h9,
                        if_neg h10, if_neg h12, if_neg h13, if_pos hctl]
                    rw [hesc]
                    simp only [List.cons_append, List.nil_append]
                    rw [parseStringBody_cons_u]
                    have hv0 : hexVal '0' = some 0 := by decide
                    rw [hv0, hexVal_hexDigitChar (c.toNat / 16) (by omega),
                      hexVal_hexDigitChar (c.toNat % 16) (by omega)]
                    have hval : 0 * 4096 + 0 * 256 + c.toNat / 16 * 16 + c.toNat % 16
                        = c.toNat := by omega
                    dsimp only
                    rw [hval, if_neg (by omega), Char.ofNat_toNat, ih]
                  · have hesc : escapeChar c = [c] := by
                      rw [escapeChar, if_neg hq, if_neg hbs, if_neg h8, if_neg h9,
                        if_neg h10, if_neg h12, if_neg h13, if_neg hctl]
                    rw [hesc, List.cons_append, List.nil_append,
                      parseStringBody_cons_plain c _ hq hbs hctl, ih]

theorem isDigit_ne_markers {c : Char} (h : c.isDigit = true) :
    c ≠ 'n' ∧ c ≠ 't' ∧ c ≠ 'f' ∧ c ≠ '"' ∧ c ≠ '[' ∧ c ≠ '{' ∧ c ≠ ']' ∧ c ≠ '}' := by
  refine ⟨?_, ?_, ?_, ?_, ?_, ?_, ?_, ?_⟩ <;> (intro he; subst he; simp at h)

theorem goodHead_ne_close {c : Char} (h : GoodHead c) : c ≠ ']' ∧ c ≠ '}' := by
  rcases h with h | h | h | h | h | h | h
  all_goals first
    | (subst h; exact ⟨by decide, by decide⟩)
    | (exact ⟨(isDigit_ne_markers h).2.2.2.2.2.2.1, (isDigit_ne_markers h).2.2.2.2.2.2.2⟩)

theorem jsizeV_pos (j : Json) : 1 ≤ jsizeV j := by
  cases j <;> rw [jsizeV] <;> omega

theorem stringify_head (j : Json) :
    ∃ c cs, stringifyJson j = c :: cs ∧ GoodHead c := by
  cases j with
  | null => exact ⟨'n', _, by rw [stringifyJson], Or.inl rfl⟩
  | bool b =>
    cases b with
    | false => exact ⟨'f', _, by rw [stringifyJson], by right; right; left; rfl⟩
    | true => exact ⟨'t', _, by rw [stringifyJson], by right; left; rfl⟩
  | num n =>
    cases hpn : printNat n with
    | nil => exact absurd hpn (printNat_ne_nil n)
    | cons c cs =>
      refine ⟨c, cs, by rw [stringifyJson, hpn], ?_⟩
      right; right; right; right; right; right
      exact printNat_all_digits n c (by rw [hpn]; simp)
  | str s => exact ⟨'"', _, by rw [stringifyJson], by right; right; right; left; rfl⟩
  | arr a =>
    cases a with
    | nil => exact ⟨'[', _, by rw [stringifyJson], by right; right; right; right; left; rfl⟩
    | cons hd tl =>
      exact ⟨'[', _, by rw [stringifyJson], by right; right; right; right; left; rfl⟩
  | obj o =>
    cases o with
    | nil =>
      exact ⟨'{', _, by rw [stringifyJson], by right; right; right; right; right; left; rfl⟩
    | cons k v tl =>
      exact ⟨'{', _, by rw [stringifyJson], by right; right; right; right; right; left; rfl⟩

theorem stringifyArrItems_head (hd : Json) (tl : JsonArr) :
    ∃ c cs, stringifyArrItems hd tl = c :: cs ∧ GoodHead c := by
  obtain ⟨c, cs, h, hg⟩ := stringify_head hd
  cases tl with
  | nil => exact ⟨c, cs, by rw [stringifyArrItems, h], hg⟩
  | cons hd2 tl2 =>
    exact ⟨c, cs ++ ',' :: stringifyArrItems hd2 tl2,
      by rw [stringifyArrItems, h, List.cons_append], hg⟩

theorem parseVal_null (f : Nat) (rest : List Char) :
    parseJsonVal (f + 1) (stringifyJson .null ++ rest) = some (.null, rest) := by
  rw [stringifyJson]
  simp only [List.cons_append, List.nil_append]
  rw [parseJsonVal.eq_def]
  simp [dropLit]

theorem parseVal_true (f : Nat) (rest : List Char) :
    parseJsonVal (f + 1) (stringifyJson (.bool true) ++ rest) = some (.bool true, rest) := by
  rw [stringifyJson]
  simp only [List.cons_append, List.nil_append]
  rw [parseJsonVal.eq_def]
  simp [dropLit]

theorem parseVal_false (f : Nat) (rest : List Char) :
    parseJsonVal (f + 1) (stringifyJson (.bool false) ++ rest) = some (.bool false, rest) := by
  rw [stringifyJson]
  simp only [List.cons_append, List.nil_append]
  rw [parseJsonVal.eq_def]
  simp [dropLit]

theorem parseVal_num (f n : Nat) (rest : List Char) (hrest : restNoDigit rest) :
    parseJsonVal (f + 1) (stringifyJson (.num n) ++ rest) = some (.num n, rest) := by
  rw [stringifyJson]
  cases hpn : printNat n with
  | nil => exact absurd hpn (printNat_ne_nil n)
  | cons c cs =>
    have hdig : c.isDigit = true := printNat_all_digits n c (by rw [hpn]; simp)
    obtain ⟨hn, ht, hf, hq, hlb, hlc, _, _⟩ := isDigit_ne_markers hdig
    have hpf : parseNatFrom (c :: (cs ++ rest)) = some (n, rest) := by
      rw [← List.cons_append, ← hpn]
      exact parseNatFrom_printNat n rest hrest
    rw [List.cons_append, parseJsonVal.eq_def]
    dsimp only
    rw [if_neg hn, if_neg ht, if_neg hf, if_neg hq, if_neg hlb, if_neg hlc, if_pos hdig, hpf]
    rfl

theorem parseVal_str (f : Nat) (s : String) (rest : List Char) :
    parseJsonVal (f + 1) (stringifyJson (.str s) ++ rest) = some (.str s, rest) := by
  rw [stringifyJson]
  simp only [List.cons_append, List.append_assoc, List.nil_append]
  rw [parseJsonVal.eq_def]
  dsimp only
  rw [if_neg (by decide), if_neg (by decide), if_neg (by decide), if_pos rfl,
    parseStringBody_escape]
  rfl

theorem parseVal_arrNil (f : Nat) (rest : List Char) :
    parseJsonVal (f + 1) (stringifyJson (.arr .nil) ++ rest) = some (.arr .nil, rest) := by
  rw [stringifyJson]
  simp only [List.cons_append, List.nil_append]
  rw [parseJsonVal.eq_def]
  simp

theorem parseVal_objNil (f : Nat) (rest : List Char) :
    parseJsonVal (f + 1) (stringifyJson (.obj .nil) ++ rest) = some (.obj .nil, rest) := by
  rw [stringifyJson]
  simp only [List.cons_append, List.nil_append]
  rw [parseJsonVal.eq_def]
  simp

theorem parseVal_arrCons (f : Nat) (hd : Json) (tl : JsonArr) (rest : List Char)
    (hA : parseArrItems f (stringifyArrItems hd tl ++ ']' :: rest) =
      some (.cons hd tl, rest)) :
    parseJsonVal (f + 1) (stringifyJson (.arr (.cons hd tl)) ++ rest) =
      some (.arr (.cons hd tl), rest) := by
  obtain ⟨c, cs, hsa, hg⟩ := stringifyArrItems_head hd tl
  have hne := (goodHead_ne_close hg).1
  rw [stringifyJson, hsa]
  rw [hsa, List.cons_append] at hA
  simp only [List.cons_append, List.append_assoc, List.nil_append]
  rw [parseJsonVal.eq_def]
  dsimp only
  rw [if_neg (by decide), if_neg (by decide), if_neg (by decide), if_neg (by decide),
    if_pos rfl, if_neg hne, hA]
  rfl

theorem stringifyObjItems_head (k : String) (v : Json) (tl : JsonObj) :
    ∃ cs, stringifyObjItems k v tl = '"' :: cs := by
  cases tl with
  | nil =>
    exact ⟨escapeChars k.data ++ '"' :: ':' :: stringifyJson v,
      by rw [stringifyObjItems]; simp [List.cons_append, List.append_assoc]⟩
  | cons k2 v2 tl2 =>
    exact ⟨escapeChars k.data ++
        '"' :: ':' :: (stringifyJson v ++ ',' :: stringifyObjItems k2 v2 tl2),
      by rw [stringifyObjItems]; simp [List.cons_append, List.append_assoc]⟩

theorem parseVal_objCons (f : Nat) (k : String) (v : Json) (tl : JsonObj) (rest : List Char)
    (hO : parseObjItems f (stringifyObjItems k v tl ++ '}' :: rest) =
      some (.cons k v tl, rest)) :
    parseJsonVal (f + 1) (stringifyJson (.obj (.cons k v tl)) ++ rest) =
      some (.obj (.cons k v tl), rest) := by
  obtain ⟨cs, hsa⟩ := stringifyObjItems_head k v tl
  rw [stringifyJson, hsa]
  rw [hsa, List.cons_append] at hO
  simp only [List.cons_append, List.append_assoc, List.nil_append]
  rw [parseJsonVal.eq_def]
  dsimp only
  rw [if_neg (by decide), if_neg (by decide), if_neg (by decide), if_neg (by decide),
    if_neg (by decide), if_pos rfl, if_neg (by decide), hO]
  rfl

theorem parseArrItems_nilTail (f : Nat) (hd : Json) (rest : List Char)
    (hV : parseJsonVal f (stringifyJson hd ++ ']' :: rest) = some (hd, ']' :: rest)) :
    parseArrItems (f + 1) (stringifyArrItems hd .nil ++ ']' :: rest) =
      some (.cons hd .nil, rest) := by
  rw [stringifyArrItems, parseArrItems.eq_def]
  dsimp only
  rw [hV]
  dsimp only [Option.bind]
  rw [if_neg (by decide), if_pos rfl]

theorem parseArrItems_consTail (f : Nat) (hd hd2 : Json) (tl2 : JsonArr) (rest : List Char)
    (hV : parseJsonVal f
        (stringifyJson hd ++ ',' :: (stringifyArrItems hd2 tl2 ++ ']' :: rest)) =
      some (hd, ',' :: (stringifyArrItems hd2 tl2 ++ ']' :: rest)))
    (hA : parseArrItems f (stringifyArrItems hd2 tl2 ++ ']' :: rest) =
      some (.cons hd2 tl2, rest)) :
    parseArrItems (f + 1) (stringifyArrItems hd (.cons hd2 tl2) ++ ']' :: rest) =
      some (.cons hd (.cons hd2 tl2), rest) := by
  rw [stringifyArrItems, List.append_assoc, List.cons_append, parseArrItems.eq_def]
  dsimp only
  rw [hV]
  dsimp only [Option.bind]
  rw [if_pos rfl, hA]
  rfl

theorem parseObjItems_nilTail (f : Nat) (k : String) (v : Json) (rest : List Char)
    (hV : parseJsonVal f (stringifyJson v ++ '}' :: rest) = some (v, '}' :: rest)) :
    parseObjItems (f + 1) (stringifyObjItems k v .nil ++ '}' :: rest) =
      some (.cons k v .nil, rest) := by
  rw [stringifyObjItems]
  simp only [List.cons_append, List.append_assoc, List.nil_append]
  rw [parseObjItems.eq_def]
  dsimp only
  rw [if_pos rfl, parseStringBody_escape]
  dsimp only [Option.bind]
  rw [if_pos rfl, hV]
  dsimp only [Option.bind]
  rw [if_neg (by decide), if_pos rfl]

theorem parseObjItems_consTail (f : Nat) (k : String) (v : Json) (k2 : String) (v2 : Json)
    (tl2 : JsonObj) (rest : List Char)
    (hV : parseJsonVal f
        (stringifyJson v ++ ',' :: (stringifyObjItems k2 v2 tl2 ++ '}' :: rest)) =
      some (v, ',' :: (stringifyObjItems k2 v2 tl2 ++ '}' :: rest)))
    (hO : parseObjItems f (stringifyObjItems k2 v2 tl2 ++ '}' :: rest) =
      some (.cons k2 v2 tl2, rest)) :
    parseObjItems (f + 1) (stringifyObjItems k v (.cons k2 v2 tl2) ++ '}' :: rest) =
      some (.cons k v (.cons k2 v2 tl2), rest) := by
  rw [stringifyObjItems]
  simp only [List.cons_append, List.append_assoc, List.nil_append]
  rw [parseObjItems.eq_def]
  dsimp only
  rw [if_pos rfl, parseStringBody_escape]
  dsimp only [Option.bind]
  rw [if_pos rfl, hV]
  dsimp only [Option.bind]
  rw [if_pos rfl, hO]
  rfl

theorem parse_stringify_main : ∀ N : Nat,
    (∀ j : Json, ∀ rest : List Char, ∀ fuel : Nat, jsizeV j ≤ N → jsizeV j < fuel →
      restNoDigit rest →
      parseJsonVal fuel (stringifyJson j ++ rest) = some (j, rest)) ∧
    (∀ hd tl, ∀ rest : List Char, ∀ fuel : Nat, jsizeA (.cons hd tl) ≤ N →
      jsizeA (.cons hd tl) < fuel →
      parseArrItems fuel (stringifyArrItems hd tl ++ ']' :: rest) =
        some (.cons hd tl, rest)) ∧
    (∀ k v tl, ∀ rest : List Char, ∀ fuel : Nat, jsizeO (.cons k v tl) ≤ N →
      jsizeO (.cons k v tl) < fuel →
      parseObjItems fuel (stringifyObjItems k v tl ++ '}' :: rest) =
        some (.cons k v tl, rest)) := by
  intro N
  induction N using Nat.strong_induction_on with
  | _ N ih =>
    refine ⟨?_, ?_, ?_⟩
    · intro j rest fuel hN hfuel hrest
      have hpos := jsizeV_pos j
      obtain ⟨f, rfl⟩ : ∃ f, fuel = f + 1 := ⟨fuel - 1, by omega⟩
      cases j with
      | null => exact parseVal_null f rest
      | bool b =>
        cases b with
        | false => exact parseVal_false f rest
        | true => exact parseVal_true f rest
      | num n => exact parseVal_num f n rest hrest
      | str s => exact parseVal_str f s rest
      | arr a =>
        cases a with
        | nil => exact parseVal_arrNil f rest
        | cons hd tl =>
          have hsz : jsizeV (.arr (.cons hd tl)) = 1 + jsizeA (.cons hd tl) := by
            rw [jsizeV]
          rw [hsz] at hN hfuel
          exact parseVal_arrCons f hd tl rest
            ((ih (jsizeA (.cons hd tl)) (by omega)).2.1 hd tl rest f (le_refl _) (by omega))
      | obj o =>
        cases o with
        | nil => exact parseVal_objNil f rest
        | cons k v tl =>
          have hsz : jsizeV (.obj (.cons k v tl)) = 1 + jsizeO (.cons k v tl) := by
            rw [jsizeV]
          rw [hsz] at hN hfuel
          exact parseVal_objCons f k v tl rest
            ((ih (jsizeO (.cons k v tl)) (by omega)).2.2 k v tl rest f (le_refl _) (by omega))
    · intro hd tl rest fuel hN hfuel
      have hvpos := jsizeV_pos hd
      obtain ⟨f, rfl⟩ : ∃ f, fuel = f + 1 := ⟨fuel - 1, by omega⟩
      cases tl with
      | nil =>
        have hsz : jsizeA (.cons hd .nil) = 1 + jsizeV hd + 0 := by rw [jsizeA, jsizeA]
        rw [hsz] at hN hfuel
        exact parseArrItems_nilTail f hd rest
          ((ih (jsizeV hd) (by omega)).1 hd (']' :: rest) f (le_refl _) (by omega)
            (by show (']').isDigit = false; decide))
      | cons hd2 tl2 =>
        have hsz : jsizeA (.cons hd (.cons hd2 tl2)) =
            1 + jsizeV hd + jsizeA (.cons hd2 tl2) := by rw [jsizeA]
        have hsz2 : jsizeA (.cons hd2 tl2) = 1 + jsizeV hd2 + jsizeA tl2 := by rw [jsizeA]
        have hv2 := jsizeV_pos hd2
        rw [hsz] at hN hfuel
        have hA := (ih (jsizeA (.cons hd2 tl2)) (by omega)).2.1 hd2 tl2 rest f
          (le_refl _) (by omega)
        have hV := (ih (jsizeV hd) (by omega)).1 hd
          (',' :: (stringifyArrItems hd2 tl2 ++ ']' :: rest)) f (le_refl _) (by omega)
          (by show (',').isDigit = false; decide)
        exact parseArrItems_consTail f hd hd2 tl2 rest hV hA
    · intro k v tl rest fuel hN hfuel
      have hvpos := jsizeV_pos v
      obtain ⟨f, rfl⟩ : ∃ f, fuel = f + 1 := ⟨fuel - 1, by omega⟩
      cases tl with
      | nil =>
        have hsz : jsizeO (.cons k v .nil) = 1 + jsizeV v + 0 := by rw [jsizeO, jsizeO]
        rw [hsz] at hN hfuel
        exact parseObjItems_nilTail f k v rest
          ((ih (jsizeV v) (by omega)).1 v ('}' :: rest) f (le_refl _) (by omega)
            (by show ('}').isDigit = false; decide))
      | cons k2 v2 tl2 =>
        have hsz : jsizeO (.cons k v (.cons k2 v2 tl2)) =
            1 + jsizeV v + jsizeO (.cons k2 v2 tl2) := by rw [jsizeO]
        have hsz2 : jsizeO (.cons k2 v2 tl2) = 1 + jsizeV v2 + jsizeO tl2 := by rw [jsizeO]
        have hv2 := jsizeV_pos v2
        rw [hsz] at hN hfuel
        have hO := (ih (jsizeO (.cons k2 v2 tl2)) (by omega)).2.2 k2 v2 tl2 rest f
          (le_refl _) (by omega)
        have hV := (ih (jsizeV v) (by omega)).1 v
          (',' :: (stringifyObjItems k2 v2 tl2 ++ '}' :: rest)) f (le_refl _) (by omega)
          (by show (',').isDigit = false; decide)
        exact parseObjItems_consTail f k v k2 v2 tl2 rest hV hO

theorem jsize_le_length : ∀ N : Nat,
    (∀ j, jsizeV j ≤ N → jsizeV j ≤ (stringifyJson j).length) ∧
    (∀ hd tl, jsizeA (.cons hd tl) ≤ N →
      jsizeA (.cons hd tl) ≤ (stringifyArrItems hd tl).length + 1) ∧
    (∀ k v tl, jsizeO (.cons k v tl) ≤ N →
      jsizeO (.cons k v tl) ≤ (stringifyObjItems k v tl).length + 1) := by
  intro N
  induction N using Nat.strong_induction_on with
  | _ N ih =>
    refine ⟨?_, ?_, ?_⟩
    · intro j hN
      cases j with
      | null => rw [jsizeV, stringifyJson]; simp
      | bool b =>
        cases b with
        | false => rw [jsizeV, stringifyJson]; simp
        | true => rw [jsizeV, stringifyJson]; simp
      | num n =>
        rw [jsizeV, stringifyJson]
        have := printNat_ne_nil n
        have := List.length_pos.mpr this
        omega
      | str s => rw [jsizeV, stringifyJson]; simp
      | arr a =>
        cases a with
        | nil => rw [jsizeV, stringifyJson]; simp [jsizeA]
        | cons hd tl =>
          rw [jsizeV, stringifyJson] at *
          have hA := (ih (jsizeA (.cons hd tl)) (by omega)).2.1 hd tl (le_refl _)
          simp only [List.length_cons, List.length_append, List.length_singleton]
          omega
      | obj o =>
        cases o with
        | nil => rw [jsizeV, stringifyJson]; simp [jsizeO]
        | cons k v tl =>
          rw [jsizeV, stringifyJson] at *
          have hO := (ih (jsizeO (.cons k v tl)) (by omega)).2.2 k v tl (le_refl _)
          simp only [List.length_cons, List.length_append, List.length_singleton]
          omega
    · intro hd tl hN
      have hvpos := jsizeV_pos hd
      cases tl with
      | nil =>
        rw [jsizeA, jsizeA, stringifyArrItems] at *
        have hV := (ih (jsizeV hd) (by omega)).1 hd (le_refl _)
        omega
      | cons hd2 tl2 =>
        rw [jsizeA, stringifyArrItems] at *
        have hV := (ih (jsizeV hd) (by omega)).1 hd (le_refl _)
        have hA := (ih (jsizeA (.cons hd2 tl2)) (by omega)).2.1 hd2 tl2 (le_refl _)
        simp only [List.length_append, List.length_cons]
        omega
    · intro k v tl hN
      have hvpos := jsizeV_pos v
      cases tl with
      | nil =>
        rw [jsizeO, jsizeO, stringifyObjItems] at *
        have hV := (ih (jsizeV v) (by omega)).1 v (le_refl _)
        simp only [List.length_append, List.length_cons, List.length_nil]
        omega
      | cons k2 v2 tl2 =>
        rw [jsizeO, stringifyObjItems] at *
        have hV := (ih (jsizeV v) (by omega)).1 v (le_refl _)
        have hO := (ih (jsizeO (.cons k2 v2 tl2)) (by omega)).2.2 k2 v2 tl2 (le_refl _)
        simp only [List.length_append, List.length_cons, List.length_nil]
        omega

/-- `JSON.parse ∘ JSON.stringify` is the identity on JSON values: the
fundamental fact behind every header codec round-trip in the app. -/
theorem parseJsonChars_stringify (j : Json) : parseJsonChars (stringifyJson j) = some j := by
  have hlen := (jsize_le_length (jsizeV j)).1 j (le_refl _)
  have h := (parse_stringify_main (jsizeV j)).1 j [] ((stringifyJson j).length + 1)
    (le_refl _) (by omega) trivial
  rw [List.append_nil] at h
  rw [parseJsonChars, h]

theorem utf8Step_len (b : Nat) (r : List Nat) : (utf8Step b r).2.length ≤ r.length := by
  rw [utf8Step.eq_def]
  rcases r with _ | ⟨b1, _ | ⟨b2, _ | ⟨b3, r3⟩⟩⟩ <;>
    (dsimp only; split_ifs <;> simp [List.tailD] <;> omega)

theorem char_valid_nat (c : Char) :
    c.toNat < 0xD800 ∨ (0xDFFF < c.toNat ∧ c.toNat < 0x110000) := c.valid

theorem utf8Decode_cons (b : Nat) (r : List Nat) :
    utf8Decode (b :: r) = (utf8Step b r).1 :: utf8Decode (utf8Step b r).2 := by
  rw [utf8Decode.eq_def]

theorem utf8Step_encodeChar (c : Char) (rest : List Nat) (b : Nat) (bs : List Nat)
    (henc : utf8EncodeChar c = b :: bs) :
    utf8Step b (bs ++ rest) = (c, rest) := by
  have hval := char_valid_nat c
  rw [utf8EncodeChar] at henc
  by_cases h1 : c.toNat < 0x80
  · rw [if_pos h1] at henc
    obtain ⟨rfl, rfl⟩ : b = c.toNat ∧ bs = [] := by
      constructor <;> (cases henc; rfl)
    rw [utf8Step.eq_def, if_pos h1, List.nil_append, Char.ofNat_toNat]
  · rw [if_neg h1] at henc
    by_cases h2 : c.toNat < 0x800
    · rw [if_pos h2] at henc
      obtain ⟨rfl, rfl⟩ : b = 0xC0 + c.toNat / 64 ∧ bs = [0x80 + c.toNat % 64] := by
        constructor <;> (cases henc; rfl)
      rw [utf8Step.eq_def, if_neg (by omega), if_neg (by omega), if_pos (by omega)]
      rw [List.cons_append, List.nil_append]
      try dsimp only
      have hcont : isCont (0x80 + c.toNat % 64) = true := by
        simp only [isCont, Bool.and_eq_true, decide_eq_true_eq]
        omega
      rw [hcont, if_pos rfl]
      try dsimp only
      rw [if_pos (by omega)]
      have hv : (0xC0 + c.toNat / 64 - 0xC0) * 64 + (0x80 + c.toNat % 64 - 0x80)
          = c.toNat := by omega
      rw [hv, Char.ofNat_toNat]
    · rw [if_neg h2] at henc
      by_cases h3 : c.toNat < 0x10000
      · rw [if_pos h3] at henc
        obtain ⟨rfl, rfl⟩ : b = 0xE0 + c.toNat / 4096 ∧
            bs = [0x80 + c.toNat / 64 % 64, 0x80 + c.toNat % 64] := by
          constructor <;> (cases henc; rfl)
        rw [utf8Step.eq_def, if_neg (by omega), if_neg (by omega), if_neg (by omega),
          if_pos (by omega)]
        rw [List.cons_append, List.cons_append, List.nil_append]
        try dsimp only
        have hc1 : isCont (0x80 + c.toNat / 64 % 64) = true := by
          simp only [isCont, Bool.and_eq_true, decide_eq_true_eq]
          omega
        have hc2 : isCont (0x80 + c.toNat % 64) = true := by
          simp only [isCont, Bool.and_eq_true, decide_eq_true_eq]
          omega
        rw [hc1, hc2, if_pos (by decide)]
        try dsimp only
        have hv : (0xE0 + c.toNat / 4096 - 0xE0) * 4096 +
            (0x80 + c.toNat / 64 % 64 - 0x80) * 64 + (0x80 + c.toNat % 64 - 0x80)
            = c.toNat := by omega
        rw [hv, if_pos (by omega), Char.ofNat_toNat]
      · rw [if_neg h3] at henc
        obtain ⟨rfl, rfl⟩ : b = 0xF0 + c.toNat / 262144 ∧
            bs = [0x80 + c.toNat / 4096 % 64, 0x80 + c.toNat / 64 % 64,
              0x80 + c.toNat % 64] := by
          constructor <;> (cases henc; rfl)
        rw [utf8Step.eq_def, if_neg (by omega), if_neg (by omega), if_neg (by omega),
          if_neg (by omega), if_pos (by omega)]
        rw [List.cons_append, List.cons_append, List.cons_append, List.nil_append]
        try dsimp only
        have hc1 : isCont (0x80 + c.toNat / 4096 % 64) = true := by
          simp only [isCont, Bool.and_eq_true, decide_eq_true_eq]
          omega
        have hc2 : isCont (0x80 + c.toNat / 64 % 64) = true := by
          simp only [isCont, Bool.and_eq_true, decide_eq_true_eq]
          omega
        have hc3 : isCont (0x80 + c.toNat % 64) = true := by
          simp only [isCont, Bool.and_eq_true, decide_eq_true_eq]
          omega
        rw [hc1, hc2, hc3, if_pos (by decide)]
        try dsimp only
        have hv : (0xF0 + c.toNat / 262144 - 0xF0) * 262144 +
            (0x80 + c.toNat / 4096 % 64 - 0x80) * 4096 +
            (0x80 + c.toNat / 64 % 64 - 0x80) * 64 + (0x80 + c.toNat % 64 - 0x80)
            = c.toNat := by omega
        rw [hv, if_pos (by omega), Char.ofNat_toNat]

theorem utf8EncodeChar_ne_nil (c : Char) : utf8EncodeChar c ≠ [] := by
  rw [utf8EncodeChar]
  split_ifs <;> simp

theorem utf8Decode_encodeChar (c : Char) (rest : List Nat) :
    utf8Decode (utf8EncodeChar c ++ rest) = c :: utf8Decode rest := by
  cases henc : utf8EncodeChar c with
  | nil => exact absurd henc (utf8EncodeChar_ne_nil c)
  | cons b bs =>
    rw [List.cons_append, utf8Decode_cons, utf8Step_encodeChar c rest b bs henc]

theorem utf8Decode_utf8Encode (cs : List Char) : utf8Decode (utf8Encode cs) = cs := by
  induction cs with
  | nil => rw [utf8Encode, utf8Decode.eq_def]
  | cons c cs ih => rw [utf8Encode, utf8Decode_encodeChar, ih]

theorem b64Val_b64Char : ∀ n, n < 64 → b64Val (b64Char n) = some n := by decide

theorem b64Val_eq : b64Val '=' = none := by decide

theorem utf8Encode_lt_256 (cs : List Char) : ∀ b ∈ utf8Encode cs, b < 256 := by
  induction cs with
  | nil => simp [utf8Encode]
  | cons c cs ih =>
    intro b hb
    rw [utf8Encode, List.mem_append] at hb
    rcases hb with hb | hb
    · have hval := char_valid_nat c
      rw [utf8EncodeChar] at hb
      by_cases h1 : c.toNat < 0x80
      · rw [if_pos h1] at hb
        simp only [List.mem_singleton] at hb
        omega
      · rw [if_neg h1] at hb
        by_cases h2 : c.toNat < 0x800
        · rw [if_pos h2] at hb
          simp only [List.mem_cons, List.mem_singleton, List.not_mem_nil, or_false] at hb
          rcases hb with hb | hb <;> omega
        · rw [if_neg h2] at hb
          by_cases h3 : c.toNat < 0x10000
          · rw [if_pos h3] at hb
            simp only [List.mem_cons, List.mem_singleton, List.not_mem_nil, or_false] at hb
            rcases hb with hb | hb | hb <;> omega
          · rw [if_neg h3] at hb
            simp only [List.mem_cons, List.mem_singleton, List.not_mem_nil, or_false] at hb
            rcases hb with hb | hb | hb | hb <;> omega
    · exact ih b hb

theorem filterMap_b64_cons (n : Nat) (hn : n < 64) (l : List Char) :
    List.filterMap b64Val (b64Char n :: l) = n :: List.filterMap b64Val l := by
  rw [List.filterMap_cons, b64Val_b64Char n hn]

theorem filterMap_b64_eq (l : List Char) :
    List.filterMap b64Val ('=' :: l) = List.filterMap b64Val l := by
  rw [List.filterMap_cons, b64Val_eq]

theorem b64_roundtrip_aux : ∀ N : Nat, ∀ bs : List Nat, bs.length ≤ N →
    (∀ b ∈ bs, b < 256) → b64DecodeLenient (b64Encode bs) = bs := by
  intro N
  induction N with
  | zero =>
    intro bs h1 _
    have hnil : bs = [] := List.eq_nil_of_length_eq_zero (by omega)
    subst hnil
    rfl
  | succ N ih =>
    intro bs hlen h
    rcases bs with _ | ⟨b0, _ | ⟨b1, _ | ⟨b2, r⟩⟩⟩
    · rfl
    · have h0 := h b0 (by simp)
      rw [b64Encode, b64DecodeLenient,
        filterMap_b64_cons _ (by omega), filterMap_b64_cons _ (by omega),
        filterMap_b64_eq, filterMap_b64_eq, List.filterMap_nil, decodeSextets]
      have hv : b0 / 4 * 4 + b0 % 4 * 16 / 16 = b0 := by omega
      rw [hv]
    · have h0 := h b0 (by simp)
      have h1 := h b1 (by simp)
      rw [b64Encode, b64DecodeLenient,
        filterMap_b64_cons _ (by omega), filterMap_b64_cons _ (by omega),
        filterMap_b64_cons _ (by omega), filterMap_b64_eq, List.filterMap_nil,
        decodeSextets]
      have hv0 : b0 / 4 * 4 + (b0 % 4 * 16 + b1 / 16) / 16 = b0 := by omega
      have hv1 : (b0 % 4 * 16 + b1 / 16) % 16 * 16 + b1 % 16 * 4 / 4 = b1 := by omega
      rw [hv0, hv1]
    · have h0 := h b0 (by simp)
      have h1 := h b1 (by simp)
      have h2 := h b2 (by simp)
      have hlen' : r.length ≤ N := by
        simp only [List.length_cons] at hlen
        omega
      rw [b64Encode, b64DecodeLenient,
        filterMap_b64_cons _ (by omega), filterMap_b64_cons _ (by omega),
        filterMap_b64_cons _ (by omega), filterMap_b64_cons _ (by omega),
        decodeSextets]
      have hv0 : b0 / 4 * 4 + (b0 % 4 * 16 + b1 / 16) / 16 = b0 := by omega
      have hv1 : (b0 % 4 * 16 + b1 / 16) % 16 * 16 + (b1 % 16 * 4 + b2 / 64) / 4
          = b1 := by omega
      have hv2 : (b1 % 16 * 4 + b2 / 64) % 4 * 64 + b2 % 64 = b2 := by omega
      rw [hv0, hv1, hv2]
      have htail := ih r hlen' (fun b hb => h b (by simp [hb]))
      rw [b64DecodeLenient] at htail
      rw [htail]

theorem b64_roundtrip (bs : List Nat) (h : ∀ b ∈ bs, b < 256) :
    b64DecodeLenient (b64Encode bs) = bs :=
  b64_roundtrip_aux bs.length bs (le_refl _) h

/-- The header codec round-trips on every JSON value. -/
theorem decodeBase64Json_encode (j : Json) :
    decodeBase64Json (encodeJsonBase64 j) = some j := by
  rw [decodeBase64Json, encodeJsonBase64]
  rw [show (String.mk (b64Encode (utf8Encode (stringifyJson j)))).data
      = b64Encode (utf8Encode (stringifyJson j)) from rfl]
  rw [b64_roundtrip _ (utf8Encode_lt_256 _), utf8Decode_utf8Encode,
    parseJsonChars_stringify]

theorem paymentResult_fromJson_toJson (r : PaymentResult) :
    PaymentResult.fromJson (PaymentResult.toJson r) = some r := by
  obtain ⟨s, t, n, rc, a, m, e⟩ := r
  cases t <;> cases n <;> cases rc <;> cases a <;> cases m <;> cases e <;> rfl

theorem finite_value_pos_iff (f : FiniteFloat) :
    0 < f.value ↔ (f.neg = false ∧ 0 < f.mantissa) := by
  rw [FiniteFloat.value]
  have hp1 : (0 : ℚ) < 10 ^ f.fracLen := by positivity
  have hp2 : (0 : ℚ) < (10 : ℚ) ^ f.exp := by positivity
  cases hneg : f.neg with
  | false =>
    simp only [Bool.false_eq_true, if_false, one_mul]
    constructor
    · intro h
      refine ⟨by trivial, ?_⟩
      by_contra h0
      have h0' : f.mantissa = 0 := by omega
      rw [h0'] at h
      norm_num at h
    · rintro ⟨_, hm⟩
      have hm' : (0 : ℚ) < (f.mantissa : ℚ) := by exact_mod_cast hm
      exact mul_pos (div_pos hm' hp1) hp2
  | true =>
    rw [if_pos rfl]
    constructor
    · intro h
      exfalso
      have hnn : (0 : ℚ) ≤ (f.mantissa : ℚ) / 10 ^ f.fracLen * (10 : ℚ) ^ f.exp := by
        have hm : (0 : ℚ) ≤ (f.mantissa : ℚ) := by positivity
        exact mul_nonneg (div_nonneg hm (le_of_lt hp1)) (le_of_lt hp2)
      have hform : (-1 : ℚ) * (f.mantissa : ℚ) / 10 ^ f.fracLen * (10 : ℚ) ^ f.exp =
          -((f.mantissa : ℚ) / 10 ^ f.fracLen * (10 : ℚ) ^ f.exp) := by ring
      rw [hform] at h
      linarith
    · rintro ⟨h, _⟩
      cases h

theorem jsNumPos_iff_value (n : JsNum) :
    jsNumPos n = true ↔
      (match n with
       | .finite f => 0 < f.value
       | .posInf => True
       | .negInf => False) := by
  cases n with
  | finite f =>
    dsimp only
    rw [finite_value_pos_iff]
    simp [jsNumPos]
  | posInf => simp [jsNumPos]
  | negInf => simp [jsNumPos]

theorem submission_decode_fail (toStr amount network recipientAddress sig : String)
    (preprocess : Json → Json) (verify : Json → Json → VerifyResult)
    (settle : Json → Json → SettleResult) (excMsg : String)
    (h : decodeBase64Json sig = none) :
    handlePaymentSubmission toStr amount network recipientAddress sig
      preprocess verify settle excMsg = (catchResponse excMsg, []) := by
  rw [handlePaymentSubmission, h]

theorem submission_null (toStr amount network recipientAddress sig : String)
    (preprocess : Json → Json) (verify : Json → Json → VerifyResult)
    (settle : Json → Json → SettleResult) (excMsg : String)
    (h : decodeBase64Json sig = some .null) :
    handlePaymentSubmission toStr amount network recipientAddress sig
      preprocess verify settle excMsg = (catchResponse excMsg, []) := by
  rw [handlePaymentSubmission, h]
  dsimp only
  rw [if_pos rfl]

theorem submission_missing_field (toStr amount network recipientAddress sig : String)
    (preprocess : Json → Json) (verify : Json → Json → VerifyResult)
    (settle : Json → Json → SettleResult) (excMsg : String) (parsed : Json)
    (h : decodeBase64Json sig = some parsed) (hn : parsed ≠ .null)
    (hm : ¬ jsTruthyOpt (jsGetField parsed "accepted") = true ∨
      ¬ jsTruthyOpt (jsGetField parsed "payload") = true) :
    handlePaymentSubmission toStr amount network recipientAddress sig
      preprocess verify settle excMsg =
      ({ status := 400
         body := errorJson "Invalid payment payload: missing accepted or payload"
         paymentResponse := none
         exposeHeaders := none }, []) := by
  rw [handlePaymentSubmission, h]
  dsimp only
  rw [if_neg hn, if_pos hm]

theorem submission_verify_fail (toStr amount network recipientAddress sig : String)
    (preprocess : Json → Json) (verify : Json → Json → VerifyResult)
    (settle : Json → Json → SettleResult) (excMsg : String) (parsed : Json)
    (h : decodeBase64Json sig = some parsed) (hn : parsed ≠ .null)
    (ht1 : jsTruthyOpt (jsGetField parsed "accepted") = true)
    (ht2 : jsTruthyOpt (jsGetField parsed "payload") = true)
    (hv : (verify (processedOf toStr amount network preprocess parsed)
      (processedAcceptedOf toStr amount network preprocess parsed)).isValid = false) :
    handlePaymentSubmission toStr amount network recipientAddress sig
      preprocess verify settle excMsg =
      ({ status := 402
         body := errorResultBody (jsOrStr
           (verify (processedOf toStr amount network preprocess parsed)
             (processedAcceptedOf toStr amount network preprocess parsed)).invalidReason
           "Payment verification failed")
         paymentResponse := some (encodeJsonBase64 (errorResultBody (jsOrStr
           (verify (processedOf toStr amount network preprocess parsed)
             (processedAcceptedOf toStr amount network preprocess parsed)).invalidReason
           "Payment verification failed")))
         exposeHeaders := some exposeValue },
       [.verifyCalled (processedOf toStr amount network preprocess parsed)
         (processedAcceptedOf toStr amount network preprocess parsed)]) := by
  rw [handlePaymentSubmission, h]
  dsimp only
  rw [if_neg hn, if_neg (by simp [ht1, ht2])]
  simp only [processedAcceptedOf, processedOf] at hv
  rw [if_pos (by simp [hv])]
  simp only [processedAcceptedOf, processedOf]

theorem submission_settle_fail (toStr amount network recipientAddress sig : String)
    (preprocess : Json → Json) (verify : Json → Json → VerifyResult)
    (settle : Json → Json → SettleResult) (excMsg : String) (parsed : Json)
    (h : decodeBase64Json sig = some parsed) (hn : parsed ≠ .null)
    (ht1 : jsTruthyOpt (jsGetField parsed "accepted") = true)
    (ht2 : jsTruthyOpt (jsGetField parsed "payload") = true)
    (hv : (verify (processedOf toStr amount network preprocess parsed)
      (processedAcceptedOf toStr amount network preprocess parsed)).isValid = true)
    (hs : (settle (processedOf toStr amount network preprocess parsed)
      (processedAcceptedOf toStr amount network preprocess parsed)).success = false) :
    handlePaymentSubmission toStr amount network recipientAddress sig
      preprocess verify settle excMsg =
      ({ status := 402
         body := errorResultBody (jsOrStr
           (settle (processedOf toStr amount network preprocess parsed)
             (processedAcceptedOf toStr amount network preprocess parsed)).errorReason
           "Payment settlement failed")
         paymentResponse := some (encodeJsonBase64 (errorResultBody (jsOrStr
           (settle (processedOf toStr amount network preprocess parsed)
             (processedAcceptedOf toStr amount network preprocess parsed)).errorReason
           "Payment settlement failed")))
         exposeHeaders := some exposeValue },
       [.verifyCalled (processedOf toStr amount network preprocess parsed)
          (processedAcceptedOf toStr amount network preprocess parsed),
        .settleCalled (processedOf toStr amount network preprocess parsed)
          (processedAcceptedOf toStr amount network preprocess parsed)]) := by
  rw [handlePaymentSubmission, h]
  dsimp only
  rw [if_neg hn, if_neg (by simp [ht1, ht2])]
  simp only [processedAcceptedOf, processedOf] at hv hs
  rw [if_neg (by simp [hv]), if_pos (by simp [hs])]
  simp only [processedAcceptedOf, processedOf]

theorem submission_success (toStr amount network recipientAddress sig : String)
    (preprocess : Json → Json) (verify : Json → Json → VerifyResult)
    (settle : Json → Json → SettleResult) (excMsg : String) (parsed : Json)
    (h : decodeBase64Json sig = some parsed) (hn : parsed ≠ .null)
    (ht1 : jsTruthyOpt (jsGetField parsed "accepted") = true)
    (ht2 : jsTruthyOpt (jsGetField parsed "payload") = true)
    (hv : (verify (processedOf toStr amount network preprocess parsed)
      (processedAcceptedOf toStr amount network preprocess parsed)).isValid = true)
    (hs : (settle (processedOf toStr amount network preprocess parsed)
      (processedAcceptedOf toStr amount network preprocess parsed)).success = true) :
    handlePaymentSubmission toStr amount network recipientAddress sig
      preprocess verify settle excMsg =
      ({ status := 200
         body := Json.obj (.cons "success" (.bool true)
         (.cons "message" (.str ("Tip of $" ++ amount ++ " received by " ++ toStr))
           (optField "transaction" (settle (processedOf toStr amount network preprocess parsed)
               (processedAcceptedOf toStr amount network preprocess parsed)).transaction
             (.cons "network" (.str (jsOrStr (settle (processedOf toStr amount network preprocess parsed)
                 (processedAcceptedOf toStr amount network preprocess parsed)).network network))
               (.cons "recipient" (.str recipientAddress)
                 (.cons "amount" (.str amount) .nil))))))
         paymentResponse := some (encodeJsonBase64 (Json.obj (.cons "success" (.bool true)
         (.cons "message" (.str ("Tip of $" ++ amount ++ " received by " ++ toStr))
           (optField "transaction" (settle (processedOf toStr amount network preprocess parsed)
               (processedAcceptedOf toStr amount network preprocess parsed)).transaction
             (.cons "network" (.str (jsOrStr (settle (processedOf toStr amount network preprocess parsed)
                 (processedAcceptedOf toStr amount network preprocess parsed)).network network))
               (.cons "recipient" (.str recipientAddress)
                 (.cons "amount" (.str amount) .nil))))))))
         exposeHeaders := some exposeValue },
       [.verifyCalled (processedOf toStr amount network preprocess parsed)
          (processedAcceptedOf toStr amount network preprocess parsed),
        .settleCalled (processedOf toStr amount network preprocess parsed)
          (processedAcceptedOf toStr amount network preprocess parsed)]) := by
  rw [handlePaymentSubmission, h]
  dsimp only
  rw [if_neg hn, if_neg (by simp [ht1, ht2])]
  simp only [processedAcceptedOf, processedOf] at hv hs
  rw [if_neg (by simp [hv]), if_neg (by simp [hs])]
  simp only [processedAcceptedOf, processedOf]

/-! ## Claim theorems -/

/-- C9: for every `PaymentResult` value, in both the success and the failure
shape, encoding it as base64 of its JSON serialization and then
base64-decoding and JSON-parsing yields a value deep-equal to the original:
the `PAYMENT-RESPONSE` header codec is a round-trip. -/
theorem C9_payment_result_roundtrip (r : PaymentResult) :
    decodePaymentResult (encodePaymentResult r) = some r := by
  rw [decodePaymentResult, encodePaymentResult, decodeBase64Json_encode]
  exact paymentResult_fromJson_toJson r

/-- C10: amount strings that are not valid positive decimal numerals —
"5abc", "1.00xyz", "Infinity" — nevertheless pass the route's amount
validation (`parseFloat` non-NaN and positive), so such requests proceed
instead of returning HTTP 400. -/
theorem C10_amount_validation_accepts_non_numerals :
    validAmount "5abc" = true ∧ isPositiveDecimalNumeral "5abc" = false ∧
    validAmount "1.00xyz" = true ∧ isPositiveDecimalNumeral "1.00xyz" = false ∧
    validAmount "Infinity" = true ∧ isPositiveDecimalNumeral "Infinity" = false :=
  ⟨rfl, rfl, rfl, rfl, rfl, rfl⟩

/-- C1: for every accepts list (of `exact`/`escrow` requirements) and chosen
input token, the client selector first filters to compatible requirements —
`exact` by case-insensitive `asset` match, `escrow` by `swapData.inputToken`
with `asset` fallback when it is absent — and then picks an `exact`
requirement if one survives, otherwise the first remaining requirement. -/
theorem C1_client_selector (inputToken : String) (reqs : List PolicyRequirements)
    (hschemes : ∀ r ∈ reqs, r.scheme = "exact" ∨ r.scheme = "escrow") :
    createInputTokenPolicy inputToken reqs = reqs.filter (specCompatible inputToken) ∧
    selectPaymentRequirement inputToken reqs =
      (match (reqs.filter (specCompatible inputToken)).find?
          (fun r => r.scheme == "exact") with
       | some e => some e
       | none => (reqs.filter (specCompatible inputToken)).head?) ∧
    ((∃ e ∈ reqs.filter (specCompatible inputToken), e.scheme = "exact") →
      ∃ chosen, selectPaymentRequirement inputToken reqs = some chosen ∧
        chosen.scheme = "exact" ∧
        chosen ∈ reqs.filter (specCompatible inputToken)) := by
  have hfilter : createInputTokenPolicy inputToken reqs =
      reqs.filter (specCompatible inputToken) := by
    rw [createInputTokenPolicy]
    refine List.filter_congr ?_
    intro r hr
    rcases hschemes r hr with hs | hs
    · simp [hs, specCompatible, lowerEq]
    · cases hsw : (r.extra.bind ExtraView.swapData).bind SwapView.inputToken with
      | none => simp [hs, specCompatible, swapInputToken, lowerEq, hsw]
      | some t =>
        by_cases ht : t = ""
        · simp [hs, specCompatible, swapInputToken, lowerEq, hsw, ht]
        · simp [hs, specCompatible, swapInputToken, lowerEq, hsw, ht]
  refine ⟨hfilter, ?_, ?_⟩
  · rw [selectPaymentRequirement, preferExactSelector, hfilter]
  · rintro ⟨e, he, hex⟩
    have hsome : ((reqs.filter (specCompatible inputToken)).find?
        (fun r => r.scheme == "exact")).isSome := by
      rw [List.find?_isSome]
      exact ⟨e, he, by simp [hex]⟩
    obtain ⟨c, hc⟩ := Option.isSome_iff_exists.mp hsome
    refine ⟨c, ?_, ?_, ?_⟩
    · rw [selectPaymentRequirement, preferExactSelector, hfilter, hc]
    · simpa using List.find?_some hc
    · exact List.mem_of_find?_eq_some hc

/-- Witness for C1 at a concrete accepts list and token. -/
theorem C1_client_selector_witness :
    createInputTokenPolicy "0xA" [⟨"exact", some "0xa", none⟩] =
      List.filter (specCompatible "0xA") [⟨"exact", some "0xa", none⟩] :=
  (C1_client_selector "0xA" [⟨"exact", some "0xa", none⟩] (by decide)).1

/-- C8: the requirements cache is a pass-through no-op — `getCachedRequirements`
always returns null and `cacheRequirements` mutates nothing — so the cache-hit
branch is unreachable and the challenge handler equals the same handler with
the cache removed; consequently two consecutive challenge requests with
identical parameters both rebuild requirements from their own quote results
and both return 402 with non-empty accepts. -/
theorem C8_cache_noop (toStr amount network recipientAddress : String)
    (exact1 exact2 : Except String (List ExactBuilt))
    (escrow1 escrow2 : Except String (List EscrowAccept)) :
    (∀ k, getCachedRequirements k = none) ∧
    (∀ k reqs, cacheRequirements k reqs = ()) ∧
    (∀ t a n r e1 e2, handle402Response t a n r e1 e2 = handle402NoCache t a n r e1 e2) ∧
    (combinedRequirements exact1 escrow1 ≠ [] →
      (handle402Response toStr amount network recipientAddress exact1 escrow1).status = 402 ∧
      (handle402Response toStr amount network recipientAddress exact1 escrow1).paymentRequired
        = some (combinedRequirements exact1 escrow1)) ∧
    (combinedRequirements exact2 escrow2 ≠ [] →
      (handle402Response toStr amount network recipientAddress exact2 escrow2).status = 402 ∧
      (handle402Response toStr amount network recipientAddress exact2 escrow2).paymentRequired
        = some (combinedRequirements exact2 escrow2)) := by
  have hrebuild : ∀ (e : Except String (List ExactBuilt))
      (sc : Except String (List EscrowAccept)), combinedRequirements e sc ≠ [] →
      (handle402Response toStr amount network recipientAddress e sc).status = 402 ∧
      (handle402Response toStr amount network recipientAddress e sc).paymentRequired
        = some (combinedRequirements e sc) := by
    intro e sc hne
    rw [handle402Response]
    dsimp only [getCachedRequirements]
    rw [if_neg (by simpa [List.isEmpty_iff] using hne)]
    exact ⟨rfl, rfl⟩
  exact ⟨fun _ => rfl, fun _ _ => rfl, fun _ _ _ _ _ _ => rfl,
    hrebuild exact1 escrow1, hrebuild exact2 escrow2⟩

/-- Witness for C8: two identical challenge requests with one fulfilled exact
quote each; both rebuild and both return 402 with the same non-empty list. -/
theorem C8_cache_noop_witness :
    (handle402Response "alice" "1" "eip155:8453" "0xR"
      (.ok [⟨"exact", "eip155:8453", some "0xUSDC", "1000000", "0xR", some 600, none⟩])
      (.error "escrow down")).status = 402 :=
  ((C8_cache_noop "alice" "1" "eip155:8453" "0xR"
      (.ok [⟨"exact", "eip155:8453", some "0xUSDC", "1000000", "0xR", some 600, none⟩])
      (.ok [⟨"exact", "eip155:8453", some "0xUSDC", "1000000", "0xR", some 600, none⟩])
      (.error "escrow down") (.error "escrow down")).2.2.2.1 (by decide)).1

/-- C3 (counterexample): with the exact quote call rejected and the escrow
call fulfilled with an empty list — exactly one of the two calls fails — the
route returns 500, not the 402 the claim asserts for every single-failure
case. -/
theorem C3_counterexample :
    (handle402Response "alice" "1" "eip155:8453" "0xR"
      (.error "exact source down") (.ok [])).status = 500 ∧
    (handle402Response "alice" "1" "eip155:8453" "0xR"
      (.error "exact source down") (.ok [])).status ≠ 402 := by
  constructor
  · rfl
  · decide

/-- C3 (amended): one quote-call failure is contained provided the surviving
call's normalized results are non-empty — then the response is 402 carrying
exactly those results; the route returns 500 with "No payment options
available" exactly when the combined normalized list is empty; and a 402
never carries an empty accepts list. -/
theorem C3_partial_failure (toStr amount network recipientAddress : String)
    (exactResult : Except String (List ExactBuilt))
    (escrowResult : Except String (List EscrowAccept)) :
    (∀ e v, exactResult = .error e → escrowResult = .ok v →
      v.map normalizeEscrow ≠ [] →
      (handle402Response toStr amount network recipientAddress exactResult escrowResult).status
        = 402 ∧
      (handle402Response toStr amount network recipientAddress exactResult escrowResult).paymentRequired
        = some (v.map normalizeEscrow)) ∧
    (∀ v e, exactResult = .ok v → escrowResult = .error e →
      v.map normalizeExact ≠ [] →
      (handle402Response toStr amount network recipientAddress exactResult escrowResult).status
        = 402 ∧
      (handle402Response toStr amount network recipientAddress exactResult escrowResult).paymentRequired
        = some (v.map normalizeExact)) ∧
    (((handle402Response toStr amount network recipientAddress exactResult escrowResult).status
        = 500 ∧
      (handle402Response toStr amount network recipientAddress exactResult escrowResult).body
        = errorJson "No payment options available") ↔
      combinedRequirements exactResult escrowResult = []) ∧
    ((handle402Response toStr amount network recipientAddress exactResult escrowResult).status
        = 402 →
      ∃ l, (handle402Response toStr amount network recipientAddress exactResult escrowResult).paymentRequired
        = some l ∧ l ≠ []) := by
  have hun : handle402Response toStr amount network recipientAddress exactResult escrowResult =
      (if (combinedRequirements exactResult escrowResult).isEmpty = true then
        { status := 500
          body := errorJson "No payment options available"
          paymentRequired := none
          exposeHeaders := none }
      else
        { status := 402
          body := challengeBody "Payment required" toStr amount network
          paymentRequired := some (combinedRequirements exactResult escrowResult)
          exposeHeaders := some exposeValue }) := by
    rw [handle402Response]
    dsimp only [getCachedRequirements]
  by_cases hC : (combinedRequirements exactResult escrowResult).isEmpty = true
  · rw [hun, if_pos hC]
    rw [List.isEmpty_iff] at hC
    refine ⟨?_, ?_, ?_, ?_⟩
    · intro e v he hv hne
      exfalso
      subst he
      subst hv
      simp [combinedRequirements] at hC
      exact hne (by simp [hC])
    · intro v e he hv hne
      exfalso
      subst he
      subst hv
      simp [combinedRequirements] at hC
      exact hne (by simp [hC])
    · exact ⟨fun _ => hC, fun _ => ⟨rfl, rfl⟩⟩
    · intro h
      simp at h
  · rw [hun, if_neg hC]
    rw [List.isEmpty_iff] at hC
    refine ⟨?_, ?_, ?_, ?_⟩
    · intro e v he hv _
      subst he
      subst hv
      exact ⟨rfl, by simp [combinedRequirements]⟩
    · intro v e he hv _
      subst he
      subst hv
      exact ⟨rfl, by simp [combinedRequirements]⟩
    · constructor
      · rintro ⟨h, _⟩
        simp at h
      · intro h
        exact absurd h hC
    · intro _
      exact ⟨combinedRequirements exactResult escrowResult, rfl, hC⟩

/-- Witness for C3 (amended) at a concrete single-failure instance. -/
theorem C3_partial_failure_witness :
    (handle402Response "alice" "1" "eip155:8453" "0xR" (.error "exact source down")
      (.ok [⟨"escrow", "eip155:8453", "0xR", some 600,
        .obj "1000000" (some "0xUSDC") none⟩])).status = 402 :=
  ((C3_partial_failure "alice" "1" "eip155:8453" "0xR" (.error "exact source down")
      (.ok [⟨"escrow", "eip155:8453", "0xR", some 600,
        .obj "1000000" (some "0xUSDC") none⟩])).1 "exact source down"
    [⟨"escrow", "eip155:8453", "0xR", some 600, .obj "1000000" (some "0xUSDC") none⟩]
    rfl rfl (by decide)).1

/-- C6 (counterexample): a request with a malformed `network` parameter does
return 400, but only after the recipient-resolution RPC and the
supported-networks fetch have already been made — the claim says no outbound
calls happen before a validation error. -/
theorem C6_counterexample :
    tipGET (some "0xabc") (some "1") (some "bogus")
      (fun _ => some "0xResolved") ["eip155:8453"] none =
      (.response 400 (errorJson "Invalid network format. Use eip155:CHAINID"),
        [.resolveRecipient "0xabc", .fetchSupportedNetworks]) ∧
    ([NetCall.resolveRecipient "0xabc", .fetchSupportedNetworks] : List NetCall) ≠ [] := by
  constructor
  · rfl
  · decide

/-- C6 (amended): the missing-parameter and amount checks fail before any
outbound call (empty trace); the network-format and network-membership
checks return 400 only after recipient resolution and the
supported-networks fetch, with exactly those two calls in the trace. -/
theorem C6_validation_order (toParam amountParam networkParam : Option String)
    (resolve : String → Option String) (supported : List String)
    (sig : Option String) :
    ((¬ jsStrTruthy toParam = true ∨ ¬ jsStrTruthy amountParam = true) →
      tipGET toParam amountParam networkParam resolve supported sig =
        (.response 400 (errorJson "Missing required parameters: to, amount"), [])) ∧
    (jsStrTruthy toParam = true → jsStrTruthy amountParam = true →
      validAmount (amountParam.getD "") = false →
      tipGET toParam amountParam networkParam resolve supported sig =
        (.response 400 (errorJson "Invalid amount. Must be a positive number."), [])) ∧
    (∀ addr, jsStrTruthy toParam = true → jsStrTruthy amountParam = true →
      validAmount (amountParam.getD "") = true →
      resolve (toParam.getD "") = some addr → supported ≠ [] →
      ((¬ networkFormatOk (if jsStrTruthy networkParam then networkParam.getD ""
          else (supported.head?).getD "") = true →
        tipGET toParam amountParam networkParam resolve supported sig =
          (.response 400 (errorJson "Invalid network format. Use eip155:CHAINID"),
            [.resolveRecipient (toParam.getD ""), .fetchSupportedNetworks])) ∧
      (networkFormatOk (if jsStrTruthy networkParam then networkParam.getD ""
          else (supported.head?).getD "") = true →
        (if jsStrTruthy networkParam then networkParam.getD ""
          else (supported.head?).getD "") ∉ supported →
        tipGET toParam amountParam networkParam resolve supported sig =
          (.response 400 (.obj (.cons "error"
              (.str ("Network " ++ (if jsStrTruthy networkParam then networkParam.getD ""
                else (supported.head?).getD "") ++ " not supported"))
              (.cons "supportedNetworks" (.arr (strArr supported)) .nil))),
            [.resolveRecipient (toParam.getD ""), .fetchSupportedNetworks])))) := by
  refine ⟨?_, ?_, ?_⟩
  · intro hm
    rw [tipGET, if_pos hm]
  · intro h1 h2 hva
    rw [tipGET, if_neg (by simp [h1, h2])]
    try dsimp only
    rw [if_pos (by simp [hva])]
  · intro addr h1 h2 hva hres hsup
    have hbase : ∀ X : GetOutcome × List NetCall, True := fun _ => trivial
    constructor
    · intro hfmt
      rw [tipGET, if_neg (by simp [h1, h2])]
      try dsimp only
      rw [if_neg (by simp [hva]), hres]
      try dsimp only
      rw [if_neg (by simp [List.isEmpty_iff, hsup])]
      try dsimp only
      rw [if_pos hfmt]
    · intro hfmt hmem
      rw [tipGET, if_neg (by simp [h1, h2])]
      try dsimp only
      rw [if_neg (by simp [hva]), hres]
      try dsimp only
      rw [if_neg (by simp [List.isEmpty_iff, hsup])]
      try dsimp only
      rw [if_neg (by simp [hfmt]), if_pos hmem]

/-- Witness for C6 (amended): the malformed-network branch at a concrete
request. -/
theorem C6_validation_order_witness :
    tipGET (some "0xabc") (some "1") (some "bogus")
      (fun _ => some "0xResolved") ["eip155:8453"] none =
      (.response 400 (errorJson "Invalid network format. Use eip155:CHAINID"),
        [.resolveRecipient "0xabc", .fetchSupportedNetworks]) :=
  (((C6_validation_order (some "0xabc") (some "1") (some "bogus")
      (fun _ => some "0xResolved") ["eip155:8453"] none).2.2 "0xResolved"
    (by decide) (by decide) (by decide) rfl (by decide)).1 (by decide))

theorem submission_branches (toStr amount network recipientAddress sig : String)
    (preprocess : Json → Json) (verify : Json → Json → VerifyResult)
    (settle : Json → Json → SettleResult) (excMsg : String) :
    handlePaymentSubmission toStr amount network recipientAddress sig
        preprocess verify settle excMsg = (catchResponse excMsg, []) ∨
    handlePaymentSubmission toStr amount network recipientAddress sig
        preprocess verify settle excMsg = (missingFieldResponse, []) ∨
    (∃ parsed, decodeBase64Json sig = some parsed ∧
      (verify (processedOf toStr amount network preprocess parsed)
        (processedAcceptedOf toStr amount network preprocess parsed)).isValid = false ∧
      handlePaymentSubmission toStr amount network recipientAddress sig
          preprocess verify settle excMsg =
        (mirrored 402 (errorResultBody (jsOrStr
            (verify (processedOf toStr amount network preprocess parsed)
              (processedAcceptedOf toStr amount network preprocess parsed)).invalidReason
            "Payment verification failed")),
         [.verifyCalled (processedOf toStr amount network preprocess parsed)
            (processedAcceptedOf toStr amount network preprocess parsed)])) ∨
    (∃ parsed, decodeBase64Json sig = some parsed ∧
      (verify (processedOf toStr amount network preprocess parsed)
        (processedAcceptedOf toStr amount network preprocess parsed)).isValid = true ∧
      (settle (processedOf toStr amount network preprocess parsed)
        (processedAcceptedOf toStr amount network preprocess parsed)).success = false ∧
      handlePaymentSubmission toStr amount network recipientAddress sig
          preprocess verify settle excMsg =
        (mirrored 402 (errorResultBody (jsOrStr
            (settle (processedOf toStr amount network preprocess parsed)
              (processedAcceptedOf toStr amount network preprocess parsed)).errorReason
            "Payment settlement failed")),
         [.verifyCalled (processedOf toStr amount network preprocess parsed)
            (processedAcceptedOf toStr amount network preprocess parsed),
          .settleCalled (processedOf toStr amount network preprocess parsed)
            (processedAcceptedOf toStr amount network preprocess parsed)])) ∨
    (∃ parsed, decodeBase64Json sig = some parsed ∧
      (verify (processedOf toStr amount network preprocess parsed)
        (processedAcceptedOf toStr amount network preprocess parsed)).isValid = true ∧
      (settle (processedOf toStr amount network preprocess parsed)
        (processedAcceptedOf toStr amount network preprocess parsed)).success = true ∧
      handlePaymentSubmission toStr amount network recipientAddress sig
          preprocess verify settle excMsg =
        (mirrored 200 (successBodyOf toStr amount network recipientAddress
          (settle (processedOf toStr amount network preprocess parsed)
            (processedAcceptedOf toStr amount network preprocess parsed))),
         [.verifyCalled (processedOf toStr amount network preprocess parsed)
            (processedAcceptedOf toStr amount network preprocess parsed),
          .settleCalled (processedOf toStr amount network preprocess parsed)
            (processedAcceptedOf toStr amount network preprocess parsed)])) := by
  cases hdec : decodeBase64Json sig with
  | none =>
    exact Or.inl (submission_decode_fail toStr amount network recipientAddress sig
      preprocess verify settle excMsg hdec)
  | some parsed =>
    by_cases hn : parsed = Json.null
    · subst hn
      exact Or.inl (submission_null toStr amount network recipientAddress sig
        preprocess verify settle excMsg hdec)
    · by_cases ht1 : jsTruthyOpt (jsGetField parsed "accepted") = true
      · by_cases ht2 : jsTruthyOpt (jsGetField parsed "payload") = true
        · by_cases hv : (verify (processedOf toStr amount network preprocess parsed)
            (processedAcceptedOf toStr amount network preprocess parsed)).isValid = true
          · by_cases hs : (settle (processedOf toStr amount network preprocess parsed)
              (processedAcceptedOf toStr amount network preprocess parsed)).success = true
            · refine Or.inr (Or.inr (Or.inr (Or.inr ⟨parsed, rfl, hv, hs, ?_⟩)))
              exact submission_success toStr amount network recipientAddress sig
                preprocess verify settle excMsg parsed hdec hn ht1 ht2 hv hs
            · have hs' : (settle (processedOf toStr amount network preprocess parsed)
                  (processedAcceptedOf toStr amount network preprocess parsed)).success
                  = false := by simpa using hs
              refine Or.inr (Or.inr (Or.inr (Or.inl ⟨parsed, rfl, hv, hs', ?_⟩)))
              exact submission_settle_fail toStr amount network recipientAddress sig
                preprocess verify settle excMsg parsed hdec hn ht1 ht2 hv hs'
          · have hv' : (verify (processedOf toStr amount network preprocess parsed)
                (processedAcceptedOf toStr amount network preprocess parsed)).isValid
                = false := by simpa using hv
            refine Or.inr (Or.inr (Or.inl ⟨parsed, rfl, hv', ?_⟩))
            exact submission_verify_fail toStr amount network recipientAddress sig
              preprocess verify settle excMsg parsed hdec hn ht1 ht2 hv'
        · exact Or.inr (Or.inl (submission_missing_field toStr amount network
            recipientAddress sig preprocess verify settle excMsg parsed hdec hn
            (Or.inr ht2)))
      · exact Or.inr (Or.inl (submission_missing_field toStr amount network
          recipientAddress sig preprocess verify settle excMsg parsed hdec hn
          (Or.inl ht1)))

/-- C2: the settlement coordinator calls settle only after verify returned
`isValid = true` for the same processed payload and accepted requirement —
a settle event forces the trace `[verify, settle]` with a valid verify —
and whenever verify reports invalid the response is HTTP 402 with an
error-shaped body carrying the `invalidReason`, with no settle call. -/
theorem C2_settle_only_after_verify (toStr amount network recipientAddress sig : String)
    (preprocess : Json → Json) (verify : Json → Json → VerifyResult)
    (settle : Json → Json → SettleResult) (excMsg : String)
    (resp : SubmitResponse) (trace : List FacEvent)
    (hout : handlePaymentSubmission toStr amount network recipientAddress sig
      preprocess verify settle excMsg = (resp, trace)) :
    (∀ p a, FacEvent.settleCalled p a ∈ trace →
      (verify p a).isValid = true ∧
      trace = [.verifyCalled p a, .settleCalled p a]) ∧
    (∀ p a, FacEvent.verifyCalled p a ∈ trace → (verify p a).isValid = false →
      resp.status = 402 ∧
      resp.body = errorResultBody (jsOrStr (verify p a).invalidReason
        "Payment verification failed") ∧
      (∀ q b, FacEvent.settleCalled q b ∉ trace)) := by
  rcases submission_branches toStr amount network recipientAddress sig
      preprocess verify settle excMsg with
    h | h | ⟨parsed, hdec, hv, h⟩ | ⟨parsed, hdec, hv, hs, h⟩ | ⟨parsed, hdec, hv, hs, h⟩ <;>
    (rw [h] at hout; injection hout with h1 h2; subst h1; subst h2)
  · exact ⟨fun p a hmem => by simp at hmem, fun p a hmem => by simp at hmem⟩
  · exact ⟨fun p a hmem => by simp at hmem, fun p a hmem => by simp at hmem⟩
  · constructor
    · intro p a hmem
      simp at hmem
    · intro p a hmem hfalse
      simp only [List.mem_singleton, FacEvent.verifyCalled.injEq] at hmem
      obtain ⟨rfl, rfl⟩ := hmem
      exact ⟨rfl, rfl, fun q b hq => by simp at hq⟩
  · constructor
    · intro p a hmem
      simp only [List.mem_cons, List.not_mem_nil, or_false] at hmem
      rcases hmem with hmem | hmem
      · simp at hmem
      · rw [FacEvent.settleCalled.injEq] at hmem
        obtain ⟨rfl, rfl⟩ := hmem
        exact ⟨hv, rfl⟩
    · intro p a hmem hfalse
      simp only [List.mem_cons, List.not_mem_nil, or_false] at hmem
      rcases hmem with hmem | hmem
      · rw [FacEvent.verifyCalled.injEq] at hmem
        obtain ⟨rfl, rfl⟩ := hmem
        rw [hv] at hfalse
        simp at hfalse
      · simp at hmem
  · constructor
    · intro p a hmem
      simp only [List.mem_cons, List.not_mem_nil, or_false] at hmem
      rcases hmem with hmem | hmem
      · simp at hmem
      · rw [FacEvent.settleCalled.injEq] at hmem
        obtain ⟨rfl, rfl⟩ := hmem
        exact ⟨hv, rfl⟩
    · intro p a hmem hfalse
      simp only [List.mem_cons, List.not_mem_nil, or_false] at hmem
      rcases hmem with hmem | hmem
      · rw [FacEvent.verifyCalled.injEq] at hmem
        obtain ⟨rfl, rfl⟩ := hmem
        rw [hv] at hfalse
        simp at hfalse
      · simp at hmem

/-- Witness for C2 at a successful concrete submission. -/
theorem C2_settle_only_after_verify_witness :
    ((fun _ _ => (⟨true, none⟩ : VerifyResult))
      (processedOf "a" "1" "n" id (Json.obj (.cons "accepted" (.str "A") (.cons "payload" (.str "P") .nil))))
      (processedAcceptedOf "a" "1" "n" id (Json.obj (.cons "accepted" (.str "A") (.cons "payload" (.str "P") .nil))))).isValid = true ∧
    (handlePaymentSubmission "a" "1" "n" "r" (encodeJsonBase64 (Json.obj (.cons "accepted" (.str "A") (.cons "payload" (.str "P") .nil)))) id
      (fun _ _ => ⟨true, none⟩) (fun _ _ => ⟨true, some "0xtx", none, none⟩) "m").2 =
      [.verifyCalled (processedOf "a" "1" "n" id (Json.obj (.cons "accepted" (.str "A") (.cons "payload" (.str "P") .nil))))
        (processedAcceptedOf "a" "1" "n" id (Json.obj (.cons "accepted" (.str "A") (.cons "payload" (.str "P") .nil)))),
       .settleCalled (processedOf "a" "1" "n" id (Json.obj (.cons "accepted" (.str "A") (.cons "payload" (.str "P") .nil))))
        (processedAcceptedOf "a" "1" "n" id (Json.obj (.cons "accepted" (.str "A") (.cons "payload" (.str "P") .nil))))] := by
  have h := submission_success "a" "1" "n" "r" (encodeJsonBase64 (Json.obj (.cons "accepted" (.str "A") (.cons "payload" (.str "P") .nil)))) id
    (fun _ _ => ⟨true, none⟩) (fun _ _ => ⟨true, some "0xtx", none, none⟩) "m"
    (Json.obj (.cons "accepted" (.str "A") (.cons "payload" (.str "P") .nil)))
    (decodeBase64Json_encode (Json.obj (.cons "accepted" (.str "A") (.cons "payload" (.str "P") .nil))))
    (by decide) (by decide) (by decide) rfl rfl
  have h2 := (C2_settle_only_after_verify "a" "1" "n" "r" (encodeJsonBase64 (Json.obj (.cons "accepted" (.str "A") (.cons "payload" (.str "P") .nil)))) id
    (fun _ _ => ⟨true, none⟩) (fun _ _ => ⟨true, some "0xtx", none, none⟩) "m"
    _ _ h).1 (processedOf "a" "1" "n" id (Json.obj (.cons "accepted" (.str "A") (.cons "payload" (.str "P") .nil)))) (processedAcceptedOf "a" "1" "n" id (Json.obj (.cons "accepted" (.str "A") (.cons "payload" (.str "P") .nil))))
    (List.Mem.tail _ (List.Mem.head _))
  exact ⟨h2.1, by rw [h]⟩

/-- C4 (counterexample): a `PAYMENT-SIGNATURE` value that fails JSON
decoding is answered with HTTP 500 (the thrown parse error lands in the
catch branch), not the HTTP 400 the claim asserts. -/
theorem C4_counterexample :
    ((handlePaymentSubmission "alice" "1" "eip155:8453" "0xR" "####" id
      (fun _ _ => ⟨true, none⟩) (fun _ _ => ⟨true, none, none, none⟩)
      "Unexpected end of JSON input").1.status = 500) ∧
    ((handlePaymentSubmission "alice" "1" "eip155:8453" "0xR" "####" id
      (fun _ _ => ⟨true, none⟩) (fun _ _ => ⟨true, none, none, none⟩)
      "Unexpected end of JSON input").1.status ≠ 400) := by
  have hnil : utf8Decode ([] : List Nat) = [] := by rw [utf8Decode.eq_def]
  have hb : b64DecodeLenient "####".data = [] := rfl
  have h : decodeBase64Json "####" = none := by
    show parseJsonChars (utf8Decode (b64DecodeLenient "####".data)) = none
    rw [hb, hnil]
    rfl
  rw [submission_decode_fail "alice" "1" "eip155:8453" "0xR" "####" id
    (fun _ _ => ⟨true, none⟩) (fun _ _ => ⟨true, none, none, none⟩)
    "Unexpected end of JSON input" h]
  exact ⟨rfl, by decide⟩

/-- C4 (amended): a submission whose decoded object lacks `accepted` or
`payload` gets HTTP 400, but a header value that fails base64/JSON decoding
lands in the catch branch and gets HTTP 500. -/
theorem C4_malformed_payload (toStr amount network recipientAddress sig : String)
    (preprocess : Json → Json) (verify : Json → Json → VerifyResult)
    (settle : Json → Json → SettleResult) (excMsg : String) :
    (decodeBase64Json sig = none →
      (handlePaymentSubmission toStr amount network recipientAddress sig
        preprocess verify settle excMsg).1.status = 500) ∧
    (∀ parsed, decodeBase64Json sig = some parsed → parsed ≠ .null →
      (¬ jsTruthyOpt (jsGetField parsed "accepted") = true ∨
        ¬ jsTruthyOpt (jsGetField parsed "payload") = true) →
      (handlePaymentSubmission toStr amount network recipientAddress sig
        preprocess verify settle excMsg).1.status = 400 ∧
      (handlePaymentSubmission toStr amount network recipientAddress sig
        preprocess verify settle excMsg).1.body =
        errorJson "Invalid payment payload: missing accepted or payload") := by
  constructor
  · intro h
    rw [submission_decode_fail toStr amount network recipientAddress sig
      preprocess verify settle excMsg h]
    rfl
  · intro parsed h hn hm
    rw [submission_missing_field toStr amount network recipientAddress sig
      preprocess verify settle excMsg parsed h hn hm]
    exact ⟨rfl, rfl⟩

/-- Witness for C4 (amended) at a concrete payload missing `payload`. -/
theorem C4_malformed_payload_witness :
    (handlePaymentSubmission "a" "1" "n" "r"
      (encodeJsonBase64 (.obj (.cons "accepted" (.str "A") .nil))) id
      (fun _ _ => ⟨true, none⟩) (fun _ _ => ⟨true, none, none, none⟩)
      "m").1.status = 400 :=
  ((C4_malformed_payload "a" "1" "n" "r"
      (encodeJsonBase64 (.obj (.cons "accepted" (.str "A") .nil))) id
      (fun _ _ => ⟨true, none⟩) (fun _ _ => ⟨true, none, none, none⟩) "m").2
    (.obj (.cons "accepted" (.str "A") .nil))
    (decodeBase64Json_encode _) (by decide) (Or.inr (by decide))).1

/-- C5 (counterexample): the malformed-payload branch (missing `payload`)
returns HTTP 400 with no `PAYMENT-RESPONSE` header and no
`Access-Control-Expose-Headers`, so the body is not mirrored in every
response branch as the claim asserts. -/
theorem C5_counterexample :
    ((handlePaymentSubmission "a" "1" "n" "r"
      (encodeJsonBase64 (.obj (.cons "accepted" (.str "A") .nil))) id
      (fun _ _ => ⟨true, none⟩) (fun _ _ => ⟨true, none, none, none⟩)
      "m").1.status = 400) ∧
    ((handlePaymentSubmission "a" "1" "n" "r"
      (encodeJsonBase64 (.obj (.cons "accepted" (.str "A") .nil))) id
      (fun _ _ => ⟨true, none⟩) (fun _ _ => ⟨true, none, none, none⟩)
      "m").1.paymentResponse = none) ∧
    ((handlePaymentSubmission "a" "1" "n" "r"
      (encodeJsonBase64 (.obj (.cons "accepted" (.str "A") .nil))) id
      (fun _ _ => ⟨true, none⟩) (fun _ _ => ⟨true, none, none, none⟩)
      "m").1.exposeHeaders = none) := by
  rw [submission_missing_field "a" "1" "n" "r"
    (encodeJsonBase64 (.obj (.cons "accepted" (.str "A") .nil))) id
    (fun _ _ => ⟨true, none⟩) (fun _ _ => ⟨true, none, none, none⟩) "m"
    (.obj (.cons "accepted" (.str "A") .nil))
    (decodeBase64Json_encode _) (by decide) (Or.inr (by decide))]
  exact ⟨rfl, rfl, rfl⟩

/-- C5 (amended): every response branch of the submission handler except
the malformed-payload 400 mirrors its JSON body into the base64
`PAYMENT-RESPONSE` header and exposes `PAYMENT-REQUIRED, PAYMENT-RESPONSE`;
the 400 branch sets neither header. -/
theorem C5_header_mirroring (toStr amount network recipientAddress sig : String)
    (preprocess : Json → Json) (verify : Json → Json → VerifyResult)
    (settle : Json → Json → SettleResult) (excMsg : String)
    (resp : SubmitResponse) (trace : List FacEvent)
    (hout : handlePaymentSubmission toStr amount network recipientAddress sig
      preprocess verify settle excMsg = (resp, trace)) :
    (resp.status ≠ 400 →
      resp.paymentResponse = some (encodeJsonBase64 resp.body) ∧
      resp.exposeHeaders = some exposeValue) ∧
    (resp.status = 400 →
      resp.paymentResponse = none ∧ resp.exposeHeaders = none) := by
  rcases submission_branches toStr amount network recipientAddress sig
      preprocess verify settle excMsg with
    h | h | ⟨parsed, hdec, hv, h⟩ | ⟨parsed, hdec, hv, hs, h⟩ | ⟨parsed, hdec, hv, hs, h⟩ <;>
    (rw [h] at hout; injection hout with h1 h2; subst h1; subst h2)
  · exact ⟨fun _ => ⟨rfl, rfl⟩, fun habs => by simp [catchResponse] at habs⟩
  · exact ⟨fun hne => absurd rfl hne, fun _ => ⟨rfl, rfl⟩⟩
  · exact ⟨fun _ => ⟨rfl, rfl⟩, fun habs => by simp [mirrored] at habs⟩
  · exact ⟨fun _ => ⟨rfl, rfl⟩, fun habs => by simp [mirrored] at habs⟩
  · exact ⟨fun _ => ⟨rfl, rfl⟩, fun habs => by simp [mirrored] at habs⟩

/-- Witness for C5 (amended) at a successful concrete submission. -/
theorem C5_header_mirroring_witness :
    ∃ resp trace,
      handlePaymentSubmission "a" "1" "n" "r" (encodeJsonBase64 (Json.obj (.cons "accepted" (.str "A") (.cons "payload" (.str "P") .nil)))) id
        (fun _ _ => ⟨true, none⟩) (fun _ _ => ⟨true, some "0xtx", none, none⟩) "m" =
        (resp, trace) ∧
      resp.paymentResponse = some (encodeJsonBase64 resp.body) ∧
      resp.exposeHeaders = some exposeValue := by
  have h := submission_success "a" "1" "n" "r" (encodeJsonBase64 (Json.obj (.cons "accepted" (.str "A") (.cons "payload" (.str "P") .nil)))) id
    (fun _ _ => ⟨true, none⟩) (fun _ _ => ⟨true, some "0xtx", none, none⟩) "m"
    (Json.obj (.cons "accepted" (.str "A") (.cons "payload" (.str "P") .nil)))
    (decodeBase64Json_encode (Json.obj (.cons "accepted" (.str "A") (.cons "payload" (.str "P") .nil))))
    (by decide) (by decide) (by decide) rfl rfl
  exact ⟨_, _, h, (C5_header_mirroring "a" "1" "n" "r" (encodeJsonBase64 (Json.obj (.cons "accepted" (.str "A") (.cons "payload" (.str "P") .nil)))) id
    (fun _ _ => ⟨true, none⟩) (fun _ _ => ⟨true, some "0xtx", none, none⟩) "m"
    _ _ h).1 (by decide)⟩

/-- C7: swap call data is decompressed exactly once, server-side: the
client header codec is the untransformed base64 JSON of the signed payload
(decoding it recovers the payload unchanged), and every facilitator call —
verify and settle alike — receives `preprocessSwapPayload` applied a single
time to the reconstructed full payload, together with that processed
payload's own `accepted` requirement. -/
theorem C7_decompress_once (toStr amount network recipientAddress sig : String)
    (preprocess : Json → Json) (verify : Json → Json → VerifyResult)
    (settle : Json → Json → SettleResult) (excMsg : String) :
    (∀ paymentPayload : Json,
      decodeBase64Json (clientBuildSignatureHeader paymentPayload) = some paymentPayload) ∧
    (∀ resp trace p a,
      handlePaymentSubmission toStr amount network recipientAddress sig
        preprocess verify settle excMsg = (resp, trace) →
      (FacEvent.verifyCalled p a ∈ trace ∨ FacEvent.settleCalled p a ∈ trace) →
      ∃ parsed, decodeBase64Json sig = some parsed ∧
        p = preprocess (mkFullPaymentPayload toStr amount network parsed
          ((jsGetField parsed "accepted").getD .null)
          ((jsGetField parsed "payload").getD .null)) ∧
        a = (jsGetField p "accepted").getD .null) ∧
    (∀ resp trace p a q b,
      handlePaymentSubmission toStr amount network recipientAddress sig
        preprocess verify settle excMsg = (resp, trace) →
      FacEvent.verifyCalled p a ∈ trace → FacEvent.settleCalled q b ∈ trace →
      p = q ∧ a = b) := by
  refine ⟨?_, ?_, ?_⟩
  · intro paymentPayload
    rw [clientBuildSignatureHeader]
    exact decodeBase64Json_encode paymentPayload
  · intro resp trace p a hout hmem
    rcases submission_branches toStr amount network recipientAddress sig
        preprocess verify settle excMsg with
      h | h | ⟨parsed, hdec, hv, h⟩ | ⟨parsed, hdec, hv, hs, h⟩ | ⟨parsed, hdec, hv, hs, h⟩ <;>
      (rw [h] at hout; injection hout with h1 h2; subst h1; subst h2)
    · rcases hmem with hmem | hmem <;> simp at hmem
    · rcases hmem with hmem | hmem <;> simp at hmem
    · refine ⟨parsed, hdec, ?_⟩
      rcases hmem with hmem | hmem
      · simp only [List.mem_singleton, FacEvent.verifyCalled.injEq] at hmem
        obtain ⟨rfl, rfl⟩ := hmem
        exact ⟨rfl, rfl⟩
      · simp at hmem
    · refine ⟨parsed, hdec, ?_⟩
      rcases hmem with hmem | hmem <;>
        simp only [List.mem_cons, List.not_mem_nil, or_false] at hmem
      · rcases hmem with hmem | hmem
        · rw [FacEvent.verifyCalled.injEq] at hmem
          obtain ⟨rfl, rfl⟩ := hmem
          exact ⟨rfl, rfl⟩
        · simp at hmem
      · rcases hmem with hmem | hmem
        · simp at hmem
        · rw [FacEvent.settleCalled.injEq] at hmem
          obtain ⟨rfl, rfl⟩ := hmem
          exact ⟨rfl, rfl⟩
    · refine ⟨parsed, hdec, ?_⟩
      rcases hmem with hmem | hmem <;>
        simp only [List.mem_cons, List.not_mem_nil, or_false] at hmem
      · rcases hmem with hmem | hmem
        · rw [FacEvent.verifyCalled.injEq] at hmem
          obtain ⟨rfl, rfl⟩ := hmem
          exact ⟨rfl, rfl⟩
        · simp at hmem
      · rcases hmem with hmem | hmem
        · simp at hmem
        · rw [FacEvent.settleCalled.injEq] at hmem
          obtain ⟨rfl, rfl⟩ := hmem
          exact ⟨rfl, rfl⟩
  · intro resp trace p a q b hout hv' hs'
    rcases submission_branches toStr amount network recipientAddress sig
        preprocess verify settle excMsg with
      h | h | ⟨parsed, hdec, hv, h⟩ | ⟨parsed, hdec, hv, hs, h⟩ | ⟨parsed, hdec, hv, hs, h⟩ <;>
      (rw [h] at hout; injection hout with h1 h2; subst h1; subst h2)
    · simp at hv'
    · simp at hv'
    · simp at hs'
    · simp only [List.mem_cons, List.not_mem_nil, or_false] at hv' hs'
      rcases hv' with hv' | hv'
      · rcases hs' with hs' | hs'
        · simp at hs'
        · rw [FacEvent.verifyCalled.injEq] at hv'
          rw [FacEvent.settleCalled.injEq] at hs'
          obtain ⟨rfl, rfl⟩ := hv'
          obtain ⟨rfl, rfl⟩ := hs'
          exact ⟨rfl, rfl⟩
      · simp at hv'
    · simp only [List.mem_cons, List.not_mem_nil, or_false] at hv' hs'
      rcases hv' with hv' | hv'
      · rcases hs' with hs' | hs'
        · simp at hs'
        · rw [FacEvent.verifyCalled.injEq] at hv'
          rw [FacEvent.settleCalled.injEq] at hs'
          obtain ⟨rfl, rfl⟩ := hv'
          obtain ⟨rfl, rfl⟩ := hs'
          exact ⟨rfl, rfl⟩
      · simp at hv'

/-- Witness for C7: the client header codec recovers a concrete signed
payload unchanged. -/
theorem C7_decompress_once_witness :
    decodeBase64Json (clientBuildSignatureHeader (Json.obj (.cons "accepted" (.str "A") (.cons "payload" (.str "P") .nil)))) = some (Json.obj (.cons "accepted" (.str "A") (.cons "payload" (.str "P") .nil))) :=
  (C7_decompress_once "a" "1" "n" "r" "" id (fun _ _ => ⟨true, none⟩)
    (fun _ _ => ⟨true, some "0xtx", none, none⟩) "m").1
    (Json.obj (.cons "accepted" (.str "A") (.cons "payload" (.str "P") .nil)))

end TipsApp
